import Mathlib

/-!
Verification of the ASON core pipeline (normalizer, parser, decoder).

The definitions below are a shallow embedding of the Rust sources
`src/normalizer.rs`, `src/parser.rs` and `src/serde/de.rs`.  Token and
location types live in repository files that are not part of the given
sources (`token.rs`, `location.rs`, `ast.rs`); those are modelled from the
specification (section 3) and from how the given sources use them.

Conventions of the embedding:
* machine integers are `Nat`; an integer number token stores the unsigned
  twin, exactly as the Rust `NumberToken` does;
* IEEE-754 float payloads are modelled by their bit patterns (`Nat`);
  `is_nan` inspects exponent and fraction bits, unary negation flips the
  sign bit, which is exactly what the two operations used by the
  normalizer do on IEEE-754 values;
* every pull-iterator stage is modelled as a function on the list of the
  items still to be produced by its upstream; a stream that ends in an
  upstream error is a pair of the tokens before the error and the error
  (downstream stages never read past the first error);
* the recursive-descent parser is indexed by fuel; every recursive call
  decreases the fuel, and each theorem either quantifies over the fuel or
  uses a concrete fuel that is obviously large enough.
-/

namespace Ason

/-- Modelled from the spec (section 3): a Range a.k.a. `Location` is a
position `{byte index, line, column}` (all zero based) plus a `length`
in bytes. -/
structure Location where
  index : Nat
  line : Nat
  column : Nat
  length : Nat
deriving DecidableEq, Repr

/-- Modelled from the spec (section 3): `Location::from_range_pair`
joins two ranges to cover `[start_of_a, end_of_b)`. -/
def fromRangePair (a b : Location) : Location :=
  { index := a.index, line := a.line, column := a.column,
    length := b.index + b.length - a.index }

/-- Modelled from the spec and the repository tests:
`Location::get_position_by_range_start` keeps the start coordinates and
zeroes the length. -/
def startPos (a : Location) : Location :=
  { index := a.index, line := a.line, column := a.column, length := 0 }

/-- `token.rs` is not among the given sources; the `NumberToken` variants
are modelled from the spec (section 3): integer buckets store the bit
pattern as the unsigned twin, float buckets store IEEE-754 values (here:
their bit patterns). -/
inductive NumberToken where
  | I8 (v : Nat)
  | U8 (v : Nat)
  | I16 (v : Nat)
  | U16 (v : Nat)
  | I32 (v : Nat)
  | U32 (v : Nat)
  | I64 (v : Nat)
  | U64 (v : Nat)
  | F32 (bits : Nat)
  | F64 (bits : Nat)
deriving DecidableEq, Repr

/-- `token.rs` is not among the given sources; the `Token` variants are
modelled from the spec (section 3). -/
inductive Token where
  | Number (n : NumberToken)
  | Boolean (b : Bool)
  | Char (c : Char)
  | String (s : String)
  | Date (timestamp : Int)
  | Variant (typeName memberName : String)
  | Identifier (name : String)
  | HexByteData (bytes : List Nat)
  | LeftBrace
  | RightBrace
  | LeftBracket
  | RightBracket
  | LeftParen
  | RightParen
  | Colon
  | Comma
  | Plus
  | Minus
  | NewLine
  | Comment (text : String)
deriving DecidableEq, Repr

/-- `TokenWithRange = {Token, Range}` (spec section 3). -/
structure TokenWithRange where
  token : Token
  range : Location
deriving DecidableEq, Repr

/-- The error type of `error.rs` (not among the given sources), modelled
from the spec (section 6): `Message` is context free,
`MessageWithLocation` is positioned, `UnexpectedEndOfDocument` is
positionless. -/
inductive AsonError where
  | Message (msg : String)
  | MessageWithLocation (msg : String) (loc : Location)
  | UnexpectedEndOfDocument (msg : String)
deriving DecidableEq, Repr

/-- IEEE-754 single precision `is_nan`: all exponent bits set and a
nonzero fraction. -/
def f32IsNaN (bits : Nat) : Bool :=
  decide ((bits / 2 ^ 23) % 256 = 255) && decide (bits % 2 ^ 23 ≠ 0)

/-- IEEE-754 double precision `is_nan`. -/
def f64IsNaN (bits : Nat) : Bool :=
  decide ((bits / 2 ^ 52) % 2048 = 2047) && decide (bits % 2 ^ 52 ≠ 0)

/-- IEEE-754 single precision negation: flip the sign bit. -/
def f32Neg (bits : Nat) : Nat := bits ^^^ 2 ^ 31

/-- IEEE-754 double precision negation: flip the sign bit. -/
def f64Neg (bits : Nat) : Nat := bits ^^^ 2 ^ 63

/-- The message of `normalizer.rs` lines 469-496 for a standalone signed
number whose magnitude exceeds the bucket maximum (single space after the
bucket name in all four branches). -/
def bareOverflowMsg (name : String) (v : Nat) : String :=
  "The " ++ name ++ " number " ++ toString v ++ " is overflowed."

/-- The message of `normalizer.rs` lines 189-216 for a plus-prefixed
signed number whose magnitude exceeds the bucket maximum.  The `i8`
branch (line 192) pads the bucket name with a second space. -/
def plusOverflowMsg (name : String) (v : Nat) : String :=
  "The " ++ name ++ " number " ++ toString v ++ " is overflowed."

/-- The message of `normalizer.rs` lines 318-437 when `-magnitude` does
not fit the signed bucket.  The `i8` branch (line 326) has no trailing
period; the other three branches do. -/
def negConvertMsg (bucketWithDot : String) (v : Nat) : String :=
  "Can not convert \"" ++ toString v ++ "\" to negative " ++ bucketWithDot

/-- `normalize` helper: consume a maximal run of `NewLine` tokens,
returning the range of the last consumed newline (`end_range`) and the
rest of the stream (normalizer.rs lines 112-120). -/
def collectNewlines (endR : Location) : List TokenWithRange → Location × List TokenWithRange
  | [] => (endR, [])
  | t :: rest =>
    match t.token with
    | .NewLine => collectNewlines t.range rest
    | _ => (endR, t :: rest)

/-- `normalize` helper: consume trailing continuous newlines
(normalizer.rs lines 133-140 and 154-161). -/
def skipNewlines : List TokenWithRange → List TokenWithRange
  | [] => []
  | t :: rest =>
    match t.token with
    | .NewLine => skipNewlines rest
    | _ => t :: rest

/-- The `Token::NewLine` arm of `normalize` (normalizer.rs lines
111-152): collapse the run of newlines; if a comma follows, emit a single
comma (also swallowing the newlines after it), otherwise emit one newline
covering the whole run. -/
def stepNewLine (startR : Location) (rest : List TokenWithRange) :
    Except AsonError TokenWithRange × List TokenWithRange :=
  match collectNewlines startR rest with
  | (endR, rest1) =>
    match rest1 with
    | c :: rest2 =>
      if c.token = .Comma then
        (.ok ⟨.Comma, fromRangePair c.range c.range⟩, skipNewlines rest2)
      else
        (.ok ⟨.NewLine, fromRangePair startR endR⟩, rest1)
    | [] => (.ok ⟨.NewLine, fromRangePair startR endR⟩, [])

/-- The `Token::Plus` arm of `normalize` (normalizer.rs lines 168-254). -/
def stepPlus (startR : Location) (rest : List TokenWithRange) :
    Except AsonError TokenWithRange × List TokenWithRange :=
  match rest with
  | [] =>
    (.error (.UnexpectedEndOfDocument "Missing the number that follow the plus sign."), [])
  | t :: rest2 =>
    match t.token with
    | .Number num =>
      match num with
      | .F32 b =>
        if f32IsNaN b then
          (.error (.MessageWithLocation "The plus sign cannot be applied to NaN."
            (fromRangePair startR t.range)), t :: rest2)
        else (.ok ⟨.Number num, fromRangePair startR t.range⟩, rest2)
      | .F64 b =>
        if f64IsNaN b then
          (.error (.MessageWithLocation "The plus sign cannot be applied to NaN."
            (fromRangePair startR t.range)), t :: rest2)
        else (.ok ⟨.Number num, fromRangePair startR t.range⟩, rest2)
      | .I8 v =>
        if 127 < v then
          (.error (.MessageWithLocation (plusOverflowMsg "i8 " v)
            (fromRangePair startR t.range)), t :: rest2)
        else (.ok ⟨.Number num, fromRangePair startR t.range⟩, rest2)
      | .I16 v =>
        if 32767 < v then
          (.error (.MessageWithLocation (plusOverflowMsg "i16" v)
            (fromRangePair startR t.range)), t :: rest2)
        else (.ok ⟨.Number num, fromRangePair startR t.range⟩, rest2)
      | .I32 v =>
        if 2147483647 < v then
          (.error (.MessageWithLocation (plusOverflowMsg "i32" v)
            (fromRangePair startR t.range)), t :: rest2)
        else (.ok ⟨.Number num, fromRangePair startR t.range⟩, rest2)
      | .I64 v =>
        if 9223372036854775807 < v then
          (.error (.MessageWithLocation (plusOverflowMsg "i64" v)
            (fromRangePair startR t.range)), t :: rest2)
        else (.ok ⟨.Number num, fromRangePair startR t.range⟩, rest2)
      | _ => (.ok ⟨.Number num, fromRangePair startR t.range⟩, rest2)
    | _ =>
      (.error (.MessageWithLocation "The plus sign can only be applied to numbers."
        (fromRangePair startR t.range)), t :: rest2)

/-- The `Token::Minus` arm of `normalize` (normalizer.rs lines 255-468).
An integer branch parses the decimal string `-v` back into the signed
type: for a `w`-bit bucket this succeeds exactly when `v ≤ 2 ^ (w - 1)`,
and the resulting `as`-cast back to the unsigned twin is the
two's-complement pattern `(2 ^ w - v) % 2 ^ w`.  (The Rust success path
consumes the number token through a recursive `iter.next()` whose result
is discarded; that call consumes exactly the number token.) -/
def stepMinus (startR : Location) (rest : List TokenWithRange) :
    Except AsonError TokenWithRange × List TokenWithRange :=
  match rest with
  | [] =>
    (.error (.UnexpectedEndOfDocument "Missing the number that follow the minus sign."), [])
  | t :: rest2 =>
    match t.token with
    | .Number num =>
      match num with
      | .F32 b =>
        if f32IsNaN b then
          (.error (.MessageWithLocation "The minus sign cannot be applied to NaN."
            (fromRangePair startR t.range)), t :: rest2)
        else (.ok ⟨.Number (.F32 (f32Neg b)), fromRangePair startR t.range⟩, rest2)
      | .F64 b =>
        if f64IsNaN b then
          (.error (.MessageWithLocation "The minus sign cannot be applied to NaN."
            (fromRangePair startR t.range)), t :: rest2)
        else (.ok ⟨.Number (.F64 (f64Neg b)), fromRangePair startR t.range⟩, rest2)
      | .I8 v =>
        if v ≤ 128 then
          (.ok ⟨.Number (.I8 ((256 - v) % 256)), fromRangePair startR t.range⟩, rest2)
        else
          (.error (.MessageWithLocation (negConvertMsg "i8" v)
            (fromRangePair startR t.range)), t :: rest2)
      | .I16 v =>
        if v ≤ 32768 then
          (.ok ⟨.Number (.I16 ((65536 - v) % 65536)), fromRangePair startR t.range⟩, rest2)
        else
          (.error (.MessageWithLocation (negConvertMsg "i16." v)
            (fromRangePair startR t.range)), t :: rest2)
      | .I32 v =>
        if v ≤ 2147483648 then
          (.ok ⟨.Number (.I32 ((4294967296 - v) % 4294967296)),
            fromRangePair startR t.range⟩, rest2)
        else
          (.error (.MessageWithLocation (negConvertMsg "i32." v)
            (fromRangePair startR t.range)), t :: rest2)
      | .I64 v =>
        if v ≤ 9223372036854775808 then
          (.ok ⟨.Number (.I64 ((18446744073709551616 - v) % 18446744073709551616)),
            fromRangePair startR t.range⟩, rest2)
        else
          (.error (.MessageWithLocation (negConvertMsg "i64." v)
            (fromRangePair startR t.range)), t :: rest2)
      | .U8 _ | .U16 _ | .U32 _ | .U64 _ =>
        (.error (.MessageWithLocation "The minus sign cannot be applied to unsigned numbers."
          (fromRangePair startR t.range)), t :: rest2)
    | _ =>
      (.error (.MessageWithLocation "The minus sign can only be applied to numbers."
        (fromRangePair startR t.range)), t :: rest2)

/-- The standalone `Token::Number` arms of `normalize` (normalizer.rs
lines 469-497): a signed bucket whose magnitude exceeds the bucket
maximum is an overflow error at the token's own range; every other token
passes through. -/
def stepNumber (t : TokenWithRange) (num : NumberToken) (rest : List TokenWithRange) :
    Except AsonError TokenWithRange × List TokenWithRange :=
  match num with
  | .I8 v =>
    if 127 < v then
      (.error (.MessageWithLocation (bareOverflowMsg "i8" v) t.range), rest)
    else (.ok t, rest)
  | .I16 v =>
    if 32767 < v then
      (.error (.MessageWithLocation (bareOverflowMsg "i16" v) t.range), rest)
    else (.ok t, rest)
  | .I32 v =>
    if 2147483647 < v then
      (.error (.MessageWithLocation (bareOverflowMsg "i32" v) t.range), rest)
    else (.ok t, rest)
  | .I64 v =>
    if 9223372036854775807 < v then
      (.error (.MessageWithLocation (bareOverflowMsg "i64" v) t.range), rest)
    else (.ok t, rest)
  | _ => (.ok t, rest)

/-- One pull of the `NormalizedTokenIter` (`fn normalize`, normalizer.rs
lines 98-504), on the list of items its upstream will still produce.
`none` is end of stream; otherwise the produced item together with the
upstream items not yet consumed. -/
def normalize : List TokenWithRange → Option (Except AsonError TokenWithRange × List TokenWithRange)
  | [] => none
  | t :: rest =>
    match t.token with
    | .NewLine => some (stepNewLine t.range rest)
    | .Comma => some (.ok ⟨.Comma, fromRangePair t.range t.range⟩, skipNewlines rest)
    | .Plus => some (stepPlus t.range rest)
    | .Minus => some (stepMinus t.range rest)
    | .Number num => some (stepNumber t num rest)
    | _ => some (.ok t, rest)

/-- Repeated pulls of `normalize` until end of stream or the first error,
with a fuel index (each pull consumes at least one upstream token, so
`ts.length` pulls always reach the end; see `normalize_progress`). -/
def normalizeRunF : Nat → List TokenWithRange → List TokenWithRange × Option AsonError
  | 0, _ => ([], none)
  | f + 1, ts =>
    match normalize ts with
    | none => ([], none)
    | some (.error e, _) => ([], some e)
    | some (.ok t, rest) =>
      match normalizeRunF f rest with
      | (out, err) => (t :: out, err)

/-- The full output of the normalization stage on an upstream token list:
the emitted tokens before the first error, and the error if one occurs. -/
def normalizeRun (ts : List TokenWithRange) : List TokenWithRange × Option AsonError :=
  normalizeRunF ts.length ts

/-- `TrimmedTokenIter` helper: drop the final token when it is the sole
trailing newline (normalizer.rs lines 534-553; the newline is dropped
only when the peek after it is truly end of stream). -/
def dropTrailingNewline : List TokenWithRange → List TokenWithRange
  | [] => []
  | [t] => if t.token = .NewLine then [] else [t]
  | t :: u :: rest => t :: dropTrailingNewline (u :: rest)

/-- The `TrimmedTokenIter` stage (normalizer.rs lines 506-553) applied to
the output of the normalization stage: drop a leading newline at
construction; drop the trailing newline only when nothing (not even an
error) follows it. -/
def trimTokens (out : List TokenWithRange) (terr : Option AsonError) : List TokenWithRange :=
  let led :=
    match out with
    | t :: rest => if t.token = .NewLine then rest else out
    | [] => []
  match terr with
  | none => dropTrailingNewline led
  | some _ => led

/-- `ast.rs` is not among the given sources; the value-tree `Number` is
modelled from the spec (section 3): the same bucket set as tokens but
integers stored as signed twins. -/
inductive AsonNumber where
  | I8 (v : Int)
  | U8 (v : Nat)
  | I16 (v : Int)
  | U16 (v : Nat)
  | I32 (v : Int)
  | U32 (v : Nat)
  | I64 (v : Int)
  | U64 (v : Nat)
  | F32 (bits : Nat)
  | F64 (bits : Nat)

mutual

/-- `ast.rs` is not among the given sources; `AsonNode` is modelled from
the spec (section 3) and from how `parser.rs` constructs it.  A `Map`
entry is a `NameValuePair` (key node, value node); an `Object` entry is a
`KeyValuePair` (identifier, value node). -/
inductive AsonNode where
  | Number (n : AsonNumber)
  | Boolean (b : Bool)
  | Char (c : Char)
  | String (s : String)
  | DateTime (timestamp : Int)
  | HexByteData (bytes : List Nat)
  | List (items : List AsonNode)
  | Map (pairs : List (AsonNode × AsonNode))
  | Tuple (items : List AsonNode)
  | Object (pairs : List (String × AsonNode))
  | Variant (typeName memberName : String) (payload : VariantPayload)

/-- The payload of a `Variant` node: `Variant::new` has no payload,
`Variant::with_value` a single node, `Variant::with_tuple` a node list,
`Variant::with_object` identifier/value pairs. -/
inductive VariantPayload where
  | unit
  | value (v : AsonNode)
  | tuple (vs : List AsonNode)
  | object (pairs : List (String × AsonNode))

end

/-- Reinterpret a `w`-bit unsigned twin as the signed value
(the Rust `as i8` / `as i16` / `as i32` / `as i64` cast). -/
def toSigned (w : Nat) (v : Nat) : Int :=
  if v < 2 ^ (w - 1) then (v : Int) else (v : Int) - 2 ^ w

/-- `fn convert_number_token` (parser.rs lines 684-699). -/
def convertNumberToken (num : NumberToken) : AsonNode :=
  match num with
  | .I8 v => .Number (.I8 (toSigned 8 v))
  | .U8 v => .Number (.U8 v)
  | .I16 v => .Number (.I16 (toSigned 16 v))
  | .U16 v => .Number (.U16 v)
  | .I32 v => .Number (.I32 (toSigned 32 v))
  | .U32 v => .Number (.U32 v)
  | .I64 v => .Number (.I64 (toSigned 64 v))
  | .U64 v => .Number (.U64 v)
  | .F32 b => .Number (.F32 b)
  | .F64 b => .Number (.F64 b)

/-- The parser's (and decoder's) view of its upstream: the tokens before
the first upstream error, that error if there is one (every code path
propagates the first error, so nothing after it is ever read), and
`last_range`, the range of the most recently consumed token
(parser.rs lines 61-72). -/
structure PState where
  toks : List TokenWithRange
  terr : Option AsonError
  last : Location
deriving DecidableEq, Repr

/-- `fn next_token` (parser.rs lines 74-83): consume one item, recording
its range in `last_range`; propagate an upstream error. -/
def nextTokenP (st : PState) : Except AsonError (Option Token × PState) :=
  match st.toks with
  | t :: rest => .ok (some t.token, ⟨rest, st.terr, t.range⟩)
  | [] =>
    match st.terr with
    | some e => .error e
    | none => .ok (none, st)

/-- `fn peek_token` (parser.rs lines 93-99). -/
def peekToken (st : PState) (offset : Nat) : Except AsonError (Option Token) :=
  match st.toks.get? offset with
  | some t => .ok (some t.token)
  | none =>
    match st.terr with
    | some e => .error e
    | none => .ok none

/-- `fn expect_token` (parser.rs lines 101-105). -/
def expectToken (st : PState) (offset : Nat) (expected : Token) : Except AsonError Bool :=
  match peekToken st offset with
  | .error e => .error e
  | .ok (some tok) => .ok (tok = expected)
  | .ok none => .ok false

/-- `fn expect_token_ignore_newline` (parser.rs lines 111-125):
`some false` when the expected token is at `offset`, `some true` when a
newline at `offset` is followed by the expected token, `none` otherwise. -/
def expectTokenIgnoreNewline (st : PState) (offset : Nat) (expected : Token) :
    Except AsonError (Option Bool) :=
  match expectToken st offset expected with
  | .error e => .error e
  | .ok true => .ok (some false)
  | .ok false =>
    match expectToken st offset .NewLine with
    | .error e => .error e
    | .ok true =>
      match expectToken st (offset + 1) expected with
      | .error e => .error e
      | .ok true => .ok (some true)
      | .ok false => .ok none
    | .ok false => .ok none

/-- `fn consume_new_line_if_exist` (parser.rs lines 128-136). -/
def consumeNewLineIfExist (st : PState) : Except AsonError (Bool × PState) :=
  match peekToken st 0 with
  | .error e => .error e
  | .ok (some .NewLine) =>
    match nextTokenP st with
    | .error e => .error e
    | .ok (_, st') => .ok (true, st')
  | .ok _ => .ok (false, st)

/-- `fn consume_new_line_or_comma_if_exist` (parser.rs lines 139-147). -/
def consumeNewLineOrCommaIfExist (st : PState) : Except AsonError (Bool × PState) :=
  match peekToken st 0 with
  | .error e => .error e
  | .ok (some .NewLine) =>
    match nextTokenP st with
    | .error e => .error e
    | .ok (_, st') => .ok (true, st')
  | .ok (some .Comma) =>
    match nextTokenP st with
    | .error e => .error e
    | .ok (_, st') => .ok (true, st')
  | .ok _ => .ok (false, st)

/-- `fn consume_token` (parser.rs lines 149-170): consume the next token;
a mismatch is positioned at the consumed token's start. -/
def consumeToken (st : PState) (expected : Token) (desc : String) :
    Except AsonError PState :=
  match nextTokenP st with
  | .error e => .error e
  | .ok (some tok, st') =>
    if tok = expected then .ok st'
    else .error (.MessageWithLocation ("Expect token: " ++ desc ++ ".") (startPos st'.last))
  | .ok (none, _) => .error (.UnexpectedEndOfDocument ("Expect token: " ++ desc ++ "."))

/-- `fn consume_right_paren` (parser.rs lines 173-175). -/
def consumeRightParen (st : PState) : Except AsonError PState :=
  consumeToken st .RightParen "right parenthese"

/-- `fn consume_right_bracket` (parser.rs lines 178-180). -/
def consumeRightBracket (st : PState) : Except AsonError PState :=
  consumeToken st .RightBracket "right bracket"

/-- `fn consume_right_brace` (parser.rs lines 183-185). -/
def consumeRightBrace (st : PState) : Except AsonError PState :=
  consumeToken st .RightBrace "right brace"

/-- `fn consume_colon` (parser.rs lines 188-190). -/
def consumeColon (st : PState) : Except AsonError PState :=
  consumeToken st .Colon "colon sign"

/-- The error returned when the recursion fuel runs out; unreachable for
any fuel larger than the total number of remaining tokens. -/
def fuelErr : AsonError := .Message "internal: parser fuel exhausted"

/-- The `list_type` state of `fn parse_list` (parser.rs lines 531-538). -/
inductive ListType where
  | unknown
  | list
  | map
deriving DecidableEq, Repr

mutual

/-- `fn parse_node` (parser.rs lines 194-273), fuel indexed. -/
def parseNode (fuel : Nat) (st : PState) : Except AsonError (AsonNode × PState) :=
  match fuel with
  | 0 => .error fuelErr
  | n + 1 =>
    match st.toks with
    | [] =>
      match st.terr with
      | some e => .error e
      | none => .error (.UnexpectedEndOfDocument "Incomplete document.")
    | t :: _ =>
      match t.token with
      | .Number num =>
        match nextTokenP st with
        | .error e => .error e
        | .ok (_, st') => .ok (convertNumberToken num, st')
      | .Boolean b =>
        match nextTokenP st with
        | .error e => .error e
        | .ok (_, st') => .ok (.Boolean b, st')
      | .Char c =>
        match nextTokenP st with
        | .error e => .error e
        | .ok (_, st') => .ok (.Char c, st')
      | .String s =>
        match nextTokenP st with
        | .error e => .error e
        | .ok (_, st') => .ok (.String s, st')
      | .Date d =>
        match nextTokenP st with
        | .error e => .error e
        | .ok (_, st') => .ok (.DateTime d, st')
      | .Variant ty mem =>
        match peekToken st 1 with
        | .error e => .error e
        | .ok (some .LeftParen) => parseTupleVariant n st
        | .ok (some .LeftBrace) => parseStructVariant n st
        | .ok _ =>
          match nextTokenP st with
          | .error e => .error e
          | .ok (_, st') => .ok (.Variant ty mem .unit, st')
      | .HexByteData bytes =>
        match nextTokenP st with
        | .error e => .error e
        | .ok (_, st') => .ok (.HexByteData bytes, st')
      | .LeftBrace => parseObject n st
      | .LeftBracket => parseList n st
      | .LeftParen => parseTuple n st
      | _ => .error (.MessageWithLocation "Unexpected token." (startPos t.range))

/-- `fn parse_tuple_variant` (parser.rs lines 276-352): consume the
variant token and the validated `(`; parse the payload items; an empty
payload is an error, one item collapses to the `Value` form, two or more
items form the `Tuple` form. -/
def parseTupleVariant (fuel : Nat) (st : PState) : Except AsonError (AsonNode × PState) :=
  match fuel with
  | 0 => .error fuelErr
  | n + 1 =>
    match nextTokenP st with
    | .error e => .error e
    | .ok (some (.Variant ty mem), st1) =>
      match nextTokenP st1 with
      | .error e => .error e
      | .ok (_, st2) =>
        match consumeNewLineIfExist st2 with
        | .error e => .error e
        | .ok (_, st3) =>
          match parseTupleItemsLoop n [] st3 with
          | .error e => .error e
          | .ok (items, st4) =>
            match consumeRightParen st4 with
            | .error e => .error e
            | .ok st5 =>
              match items with
              | [] =>
                .error (.MessageWithLocation
                  "The value of tuple style variant can not be empty."
                  (startPos st5.last))
              | [x] => .ok (.Variant ty mem (.value x), st5)
              | xs => .ok (.Variant ty mem (.tuple xs), st5)
    | .ok _ => .error (.Message "unreachable")

/-- `fn parse_struct_variant` (parser.rs lines 354-375). -/
def parseStructVariant (fuel : Nat) (st : PState) : Except AsonError (AsonNode × PState) :=
  match fuel with
  | 0 => .error fuelErr
  | n + 1 =>
    match nextTokenP st with
    | .error e => .error e
    | .ok (some (.Variant ty mem), st1) =>
      match parseKeyValuePairs n st1 with
      | .error e => .error e
      | .ok (kvps, st2) => .ok (.Variant ty mem (.object kvps), st2)
    | .ok _ => .error (.Message "unreachable")

/-- `fn parse_key_value_pairs` (parser.rs lines 377-456): consume `{`,
an optional newline, the pair loop, and the closing `}`. -/
def parseKeyValuePairs (fuel : Nat) (st : PState) :
    Except AsonError (List (String × AsonNode) × PState) :=
  match fuel with
  | 0 => .error fuelErr
  | n + 1 =>
    match nextTokenP st with
    | .error e => .error e
    | .ok (_, st1) =>
      match consumeNewLineIfExist st1 with
      | .error e => .error e
      | .ok (_, st2) =>
        match parseKvpLoop n [] st2 with
        | .error e => .error e
        | .ok (kvps, st3) =>
          match consumeRightBrace st3 with
          | .error e => .error e
          | .ok st4 => .ok (kvps, st4)

/-- The `while let` loop of `fn parse_key_value_pairs` (parser.rs lines
391-450): stop at `}` or end of stream; otherwise an identifier key, an
optional newline, `:`, an optional newline, a value node, and a
comma-or-newline separator (stopping when it is absent). -/
def parseKvpLoop (fuel : Nat) (acc : List (String × AsonNode)) (st : PState) :
    Except AsonError (List (String × AsonNode) × PState) :=
  match fuel with
  | 0 => .error fuelErr
  | n + 1 =>
    match st.toks with
    | [] =>
      match st.terr with
      | some e => .error e
      | none => .ok (acc, st)
    | t :: _ =>
      if t.token = .RightBrace then .ok (acc, st)
      else
        match nextTokenP st with
        | .error e => .error e
        | .ok (some (.Identifier name), st1) =>
          match consumeNewLineIfExist st1 with
          | .error e => .error e
          | .ok (_, st2) =>
            match consumeColon st2 with
            | .error e => .error e
            | .ok st3 =>
              match consumeNewLineIfExist st3 with
              | .error e => .error e
              | .ok (_, st4) =>
                match parseNode n st4 with
                | .error e => .error e
                | .ok (value, st5) =>
                  match consumeNewLineOrCommaIfExist st5 with
                  | .error e => .error e
                  | .ok (true, st6) => parseKvpLoop n (acc ++ [(name, value)]) st6
                  | .ok (false, st6) => .ok (acc ++ [(name, value)], st6)
        | .ok (some _, st1) =>
          .error (.MessageWithLocation "Expect a key name for object." (startPos st1.last))
        | .ok (none, _) =>
          .error (.UnexpectedEndOfDocument "Expect a key name for object.")

/-- `fn parse_object` (parser.rs lines 458-461). -/
def parseObject (fuel : Nat) (st : PState) : Except AsonError (AsonNode × PState) :=
  match fuel with
  | 0 => .error fuelErr
  | n + 1 =>
    match parseKeyValuePairs n st with
    | .error e => .error e
    | .ok (kvps, st1) => .ok (.Object kvps, st1)

/-- `fn parse_list` (parser.rs lines 519-616): consume `[` and an
optional newline, then the body. -/
def parseList (fuel : Nat) (st : PState) : Except AsonError (AsonNode × PState) :=
  match fuel with
  | 0 => .error fuelErr
  | n + 1 =>
    match nextTokenP st with
    | .error e => .error e
    | .ok (_, st1) =>
      match consumeNewLineIfExist st1 with
      | .error e => .error e
      | .ok (_, st2) => parseListBody n st2

/-- The part of `fn parse_list` after the opening bracket: the element
loop starting with `list_type = Unknown`, the closing `]`, and the final
`List`/`Map` choice (parser.rs lines 528-615; the `Map` branch is taken
whenever `list_type` is not `List`, including when it is still
`Unknown`). -/
def parseListBody (fuel : Nat) (st : PState) : Except AsonError (AsonNode × PState) :=
  match fuel with
  | 0 => .error fuelErr
  | n + 1 =>
    match parseListLoop n .unknown [] [] st with
    | .error e => .error e
    | .ok (lt, items, nvps, st2) =>
      match consumeRightBracket st2 with
      | .error e => .error e
      | .ok st3 =>
        if lt = .list then .ok (.List items, st3) else .ok (.Map nvps, st3)

/-- The `while let` loop of `fn parse_list` (parser.rs lines 544-606):
stop at `]` or end of stream; otherwise parse one node, decide
`list_type` by `expect_token_ignore_newline(0, Colon)` when it is still
`Unknown`, and continue with the decided type. -/
def parseListLoop (fuel : Nat) (lt : ListType) (items : List AsonNode)
    (nvps : List (AsonNode × AsonNode)) (st : PState) :
    Except AsonError (ListType × List AsonNode × List (AsonNode × AsonNode) × PState) :=
  match fuel with
  | 0 => .error fuelErr
  | n + 1 =>
    match st.toks with
    | [] =>
      match st.terr with
      | some e => .error e
      | none => .ok (lt, items, nvps, st)
    | t :: _ =>
      if t.token = .RightBracket then .ok (lt, items, nvps, st)
      else
        match parseNode n st with
        | .error e => .error e
        | .ok (item, st1) =>
          match
            (if lt = .unknown then
              match expectTokenIgnoreNewline st1 0 .Colon with
              | .error e => .error e
              | .ok dec => .ok (if dec.isSome then ListType.map else ListType.list)
            else (.ok lt : Except AsonError ListType)) with
          | .error e => .error e
          | .ok lt2 => parseListContinue n lt2 items nvps item st1

/-- The tail of one `parse_list` loop iteration (parser.rs lines
586-605): in `List` form push the item; otherwise consume an optional
newline, `:`, an optional newline and the value node, pushing the pair.
Then consume a comma-or-newline separator and continue, or stop when it
is absent. -/
def parseListContinue (fuel : Nat) (lt : ListType) (items : List AsonNode)
    (nvps : List (AsonNode × AsonNode)) (item : AsonNode) (st : PState) :
    Except AsonError (ListType × List AsonNode × List (AsonNode × AsonNode) × PState) :=
  match fuel with
  | 0 => .error fuelErr
  | n + 1 =>
    if lt = .list then
      match consumeNewLineOrCommaIfExist st with
      | .error e => .error e
      | .ok (true, st2) => parseListLoop n lt (items ++ [item]) nvps st2
      | .ok (false, st2) => .ok (lt, items ++ [item], nvps, st2)
    else
      match consumeNewLineIfExist st with
      | .error e => .error e
      | .ok (_, sta) =>
        match consumeColon sta with
        | .error e => .error e
        | .ok stb =>
          match consumeNewLineIfExist stb with
          | .error e => .error e
          | .ok (_, stc) =>
            match parseNode n stc with
            | .error e => .error e
            | .ok (value, std') =>
              match consumeNewLineOrCommaIfExist std' with
              | .error e => .error e
              | .ok (true, st2) => parseListLoop n lt items (nvps ++ [(item, value)]) st2
              | .ok (false, st2) => .ok (lt, items, nvps ++ [(item, value)], st2)

/-- `fn parse_tuple` (parser.rs lines 618-681): consume `(` and an
optional newline, parse the items, consume `)`; an empty tuple is an
error. -/
def parseTuple (fuel : Nat) (st : PState) : Except AsonError (AsonNode × PState) :=
  match fuel with
  | 0 => .error fuelErr
  | n + 1 =>
    match nextTokenP st with
    | .error e => .error e
    | .ok (_, st1) =>
      match consumeNewLineIfExist st1 with
      | .error e => .error e
      | .ok (_, st2) =>
        match parseTupleItemsLoop n [] st2 with
        | .error e => .error e
        | .ok (items, st3) =>
          match consumeRightParen st3 with
          | .error e => .error e
          | .ok st4 =>
            if items.isEmpty then
              .error (.MessageWithLocation "Tuple can not be empty." (startPos st4.last))
            else .ok (.Tuple items, st4)

/-- The `while let` element loop shared textually by `fn parse_tuple`
(parser.rs lines 632-668) and `fn parse_tuple_variant` (lines 299-335):
stop at `)` or end of stream; otherwise parse one node and a
comma-or-newline separator, stopping when the separator is absent. -/
def parseTupleItemsLoop (fuel : Nat) (acc : List AsonNode) (st : PState) :
    Except AsonError (List AsonNode × PState) :=
  match fuel with
  | 0 => .error fuelErr
  | n + 1 =>
    match st.toks with
    | [] =>
      match st.terr with
      | some e => .error e
      | none => .ok (acc, st)
    | t :: _ =>
      if t.token = .RightParen then .ok (acc, st)
      else
        match parseNode n st with
        | .error e => .error e
        | .ok (value, st1) =>
          match consumeNewLineOrCommaIfExist st1 with
          | .error e => .error e
          | .ok (true, st2) => parseTupleItemsLoop n (acc ++ [value]) st2
          | .ok (false, st2) => .ok (acc ++ [value], st2)

end

/-- `fn parse_from_char_stream` after lexing and normalization
(parser.rs lines 48-58): parse the root node, then consume one more
item; a surviving token is the more-than-one-node error at that token's
start. -/
def parseFromTokens (fuel : Nat) (st : PState) : Except AsonError AsonNode :=
  match parseNode fuel st with
  | .error e => .error e
  | .ok (root, st1) =>
    match nextTokenP st1 with
    | .error e => .error e
    | .ok (some _, st2) =>
      .error (.MessageWithLocation "Document has more than one node."
        (startPos st2.last))
    | .ok (none, _) => .ok root

/-- A parser state over a plain token list with no upstream error. -/
def initState (ts : List TokenWithRange) : PState :=
  ⟨ts, none, ⟨0, 0, 0, 0⟩⟩

/-- The token-stream part of the pipeline of `parse_from_char_stream`
(parser.rs lines 33-46): normalize the lexed tokens, trim boundary
newlines, and present tokens-then-first-error to the parser. -/
def pipelineState (ts : List TokenWithRange) : PState :=
  match normalizeRun ts with
  | (out, terr) => ⟨trimTokens out terr, terr, ⟨0, 0, 0, 0⟩⟩

/-- Outcome of a decoder operation (`serde/de.rs`): a value together
with the updated stream state, a positioned/positionless error together
with the stream state at the point of failure, or a Rust panic
(`unwrap` on `None`). -/
inductive DeResult (α : Type) where
  | ok (a : α) (st : PState)
  | err (e : AsonError) (st : PState)
  | panic

/-- `Deserializer::consume_token` (de.rs lines 148-165): same shape as
the parser's, but the end-of-document message quotes the description. -/
def deConsumeToken (st : PState) (expected : Token) (desc : String) : DeResult Unit :=
  match st.toks with
  | t :: rest =>
    if t.token = expected then .ok () ⟨rest, st.terr, t.range⟩
    else
      .err (.MessageWithLocation ("Expect token: " ++ desc ++ ".") (startPos t.range))
        ⟨rest, st.terr, t.range⟩
  | [] =>
    match st.terr with
    | some e => .err e ⟨[], none, st.last⟩
    | none => .err (.UnexpectedEndOfDocument ("Expect token: \"" ++ desc ++ "\".")) st

/-- `Deserializer::consume_right_paren` (de.rs lines 168-170). -/
def deConsumeRightParen (st : PState) : DeResult Unit :=
  deConsumeToken st .RightParen "close parenthese \")\""

/-- `fn deserialize_bool` (de.rs lines 201-215). -/
def deserializeBool (st : PState) : DeResult Bool :=
  match st.toks with
  | t :: rest =>
    match t.token with
    | .Boolean v => .ok v ⟨rest, st.terr, t.range⟩
    | _ =>
      .err (.MessageWithLocation "Expect a \"Boolean\" value." (startPos t.range))
        ⟨rest, st.terr, t.range⟩
  | [] =>
    match st.terr with
    | some e => .err e ⟨[], none, st.last⟩
    | none => .err (.UnexpectedEndOfDocument "Expect a \"Boolean\" value.") st

/-- `fn deserialize_i32` (de.rs lines 249-263); the stored unsigned twin
is reinterpreted with `as i32`. -/
def deserializeI32 (st : PState) : DeResult Int :=
  match st.toks with
  | t :: rest =>
    match t.token with
    | .Number (.I32 v) => .ok (toSigned 32 v) ⟨rest, st.terr, t.range⟩
    | _ =>
      .err (.MessageWithLocation "Expect an \"i32\" value." (startPos t.range))
        ⟨rest, st.terr, t.range⟩
  | [] =>
    match st.terr with
    | some e => .err e ⟨[], none, st.last⟩
    | none => .err (.UnexpectedEndOfDocument "Expect an \"i32\" value.") st

/-- `fn deserialize_option` (de.rs lines 457-492), with the visitor's
`visit_none` result and `visit_some` continuation as parameters.

The source consumes the token and matches a `Variant`; with type name
`Option`, member `None` not followed by `(` visits none, member `Some`
followed by `(` consumes the `(`, runs `visit_some`, and then always
runs `consume_right_paren` before returning `visit_some`'s result (a
failing `consume_right_paren` takes precedence, via `?`).  Every other
member/parenthesis combination builds the invalid-member error at
`*self.peek_range(0)?.unwrap()` — when the stream holds no further item
that `unwrap` is a panic. -/
def deserializeOption {α : Type} (visitNone : α) (visitSome : PState → DeResult α)
    (st : PState) : DeResult α :=
  match st.toks with
  | t :: rest =>
    match t.token with
    | .Variant ty mem =>
      if ty = "Option" then
        match expectToken ⟨rest, st.terr, t.range⟩ 0 .LeftParen with
        | .error e => .err e ⟨rest, st.terr, t.range⟩
        | .ok paren =>
          if mem = "None" && !paren then .ok visitNone ⟨rest, st.terr, t.range⟩
          else if mem = "Some" && paren then
            match nextTokenP ⟨rest, st.terr, t.range⟩ with
            | .error e => .err e ⟨rest, st.terr, t.range⟩
            | .ok (_, st2) =>
              match visitSome st2 with
              | .panic => .panic
              | .ok a st3 =>
                match deConsumeRightParen st3 with
                | .ok _ st4 => .ok a st4
                | .err e2 st4 => .err e2 st4
                | .panic => .panic
              | .err e st3 =>
                match deConsumeRightParen st3 with
                | .ok _ st4 => .err e st4
                | .err e2 st4 => .err e2 st4
                | .panic => .panic
          else
            match rest with
            | u :: _ =>
              .err (.MessageWithLocation "Invalid member of variant \"Option\"." u.range)
                ⟨rest, st.terr, t.range⟩
            | [] =>
              match st.terr with
              | some e => .err e ⟨rest, st.terr, t.range⟩
              | none => .panic
      else
        .err (.MessageWithLocation "Expect the \"Option\" type of variant." t.range)
          ⟨rest, st.terr, t.range⟩
    | _ =>
      .err (.MessageWithLocation "Expect the \"Option\" type of variant." (startPos t.range))
        ⟨rest, st.terr, t.range⟩
  | [] =>
    match st.terr with
    | some e => .err e ⟨[], none, st.last⟩
    | none => .err (.UnexpectedEndOfDocument "Expect the \"Option\" type of variant.") st

/-- The serde visitor for `Option<i32>`: `visit_some` deserializes the
inner `i32` and wraps it in `Some`. -/
def visitSomeI32 (st : PState) : DeResult (Option Int) :=
  match deserializeI32 st with
  | .ok v st' => .ok (some v) st'
  | .err e st' => .err e st'
  | .panic => .panic

/-- Decoding a value of type `Option<i32>`. -/
def deserializeOptionI32 (st : PState) : DeResult (Option Int) :=
  deserializeOption none visitSomeI32 st

/-- `fn from_char_stream` after lexing and normalization (de.rs lines
62-76): deserialize, then peek; a surviving token is the
more-than-one-node error at that token's start; a surviving upstream
error is forwarded. -/
def deFromTokens {α : Type} (d : PState → DeResult α) (st : PState) : DeResult α :=
  match d st with
  | .ok a st' =>
    match st'.toks with
    | t :: _ =>
      .err (.MessageWithLocation "Document has more than one node." (startPos t.range)) st'
    | [] =>
      match st'.terr with
      | some e => .err e st'
      | none => .ok a st'
  | r => r

/-- Well-formedness of a parsed value tree, as claimed by the spec
(section 3 invariants): every `Tuple` node is non-empty and every
tuple-form variant payload has at least two items, recursively. -/
inductive NodeWF : AsonNode → Prop where
  | num : ∀ x, NodeWF (.Number x)
  | bool : ∀ b, NodeWF (.Boolean b)
  | char : ∀ c, NodeWF (.Char c)
  | str : ∀ s, NodeWF (.String s)
  | date : ∀ d, NodeWF (.DateTime d)
  | hex : ∀ bs, NodeWF (.HexByteData bs)
  | list : ∀ items, (∀ x ∈ items, NodeWF x) → NodeWF (.List items)
  | map : ∀ ps, (∀ p ∈ ps, NodeWF (Prod.fst p)) → (∀ p ∈ ps, NodeWF (Prod.snd p)) →
      NodeWF (.Map ps)
  | tuple : ∀ items, items ≠ [] → (∀ x ∈ items, NodeWF x) → NodeWF (.Tuple items)
  | object : ∀ ps, (∀ p ∈ ps, NodeWF (Prod.snd p)) → NodeWF (.Object ps)
  | variantUnit : ∀ ty mem, NodeWF (.Variant ty mem .unit)
  | variantValue : ∀ ty mem v, NodeWF v → NodeWF (.Variant ty mem (.value v))
  | variantTuple : ∀ ty mem vs, 2 ≤ vs.length → (∀ x ∈ vs, NodeWF x) →
      NodeWF (.Variant ty mem (.tuple vs))
  | variantObject : ∀ ty mem ps, (∀ p ∈ ps, NodeWF (Prod.snd p)) →
      NodeWF (.Variant ty mem (.object ps))

/-- Whether two adjacent output tokens violate the separator invariant:
two newlines, or a comma adjacent to a newline in either order. -/
def badPair (a b : Token) : Bool :=
  (a = Token.NewLine && b = Token.NewLine) ||
  (a = Token.Comma && b = Token.NewLine) ||
  (a = Token.NewLine && b = Token.Comma)

/-- No two adjacent tokens of the list violate the separator invariant. -/
def noBadAdjacency : List TokenWithRange → Bool
  | a :: b :: rest => !badPair a.token b.token && noBadAdjacency (b :: rest)
  | _ => true

/-- Modelled from the spec: the lexer output for `"true false"`
(`true` at bytes [0,4), `false` at bytes [5,10), both on line 0). -/
def trueFalseToks : List TokenWithRange :=
  [⟨.Boolean true, ⟨0, 0, 0, 4⟩⟩, ⟨.Boolean false, ⟨5, 0, 5, 5⟩⟩]

/-- Modelled from the spec: the lexer output for `"-0_i8"`
(`-` at [0,1), the number literal `0_i8` — bucket `I8`, stored unsigned
magnitude 0 — at [1,5)). -/
def minusZeroI8Toks : List TokenWithRange :=
  [⟨.Minus, ⟨0, 0, 0, 1⟩⟩, ⟨.Number (.I8 0), ⟨1, 0, 1, 4⟩⟩]

/-- Modelled from the spec: the lexer output for `"-1_u8"`
(`-` at [0,1), the number literal `1_u8` at [1,5)). -/
def minusOneU8Toks : List TokenWithRange :=
  [⟨.Minus, ⟨0, 0, 0, 1⟩⟩, ⟨.Number (.U8 1), ⟨1, 0, 1, 4⟩⟩]

/-- Modelled from the spec: the lexer output for `"{id:123 name:\"foo\"}"`
(`{` at 0, `id` at [1,3), `:` at 3, `123` at [4,7), `name` at [8,12),
`:` at 12, `"foo"` at [13,18), `}` at 18). -/
def objMissingSepToks : List TokenWithRange :=
  [⟨.LeftBrace, ⟨0, 0, 0, 1⟩⟩,
   ⟨.Identifier "id", ⟨1, 0, 1, 2⟩⟩,
   ⟨.Colon, ⟨3, 0, 3, 1⟩⟩,
   ⟨.Number (.I32 123), ⟨4, 0, 4, 3⟩⟩,
   ⟨.Identifier "name", ⟨8, 0, 8, 4⟩⟩,
   ⟨.Colon, ⟨12, 0, 12, 1⟩⟩,
   ⟨.String "foo", ⟨13, 0, 13, 5⟩⟩,
   ⟨.RightBrace, ⟨18, 0, 18, 1⟩⟩]

/-- Modelled from the spec: the lexer output for `"[123 456]"`. -/
def listMissingSepToks : List TokenWithRange :=
  [⟨.LeftBracket, ⟨0, 0, 0, 1⟩⟩,
   ⟨.Number (.I32 123), ⟨1, 0, 1, 3⟩⟩,
   ⟨.Number (.I32 456), ⟨5, 0, 5, 3⟩⟩,
   ⟨.RightBracket, ⟨8, 0, 8, 1⟩⟩]

/-- Modelled from the spec: the lexer output for `"(123 456)"`. -/
def tupleMissingSepToks : List TokenWithRange :=
  [⟨.LeftParen, ⟨0, 0, 0, 1⟩⟩,
   ⟨.Number (.I32 123), ⟨1, 0, 1, 3⟩⟩,
   ⟨.Number (.I32 456), ⟨5, 0, 5, 3⟩⟩,
   ⟨.RightParen, ⟨8, 0, 8, 1⟩⟩]

/-- Modelled from the spec: the lexer output for `"()"`. -/
def emptyTupleToks : List TokenWithRange :=
  [⟨.LeftParen, ⟨0, 0, 0, 1⟩⟩, ⟨.RightParen, ⟨1, 0, 1, 1⟩⟩]

/-- Modelled from the spec: the lexer output for `"Type::Member()"`
(the variant path at [0,12), `(` at 12, `)` at 13). -/
def emptyVariantToks : List TokenWithRange :=
  [⟨.Variant "Type" "Member", ⟨0, 0, 0, 12⟩⟩,
   ⟨.LeftParen, ⟨12, 0, 12, 1⟩⟩,
   ⟨.RightParen, ⟨13, 0, 13, 1⟩⟩]

/-- Modelled from the spec: the lexer output for `"[]"`. -/
def emptyBracketToks : List TokenWithRange :=
  [⟨.LeftBracket, ⟨0, 0, 0, 1⟩⟩, ⟨.RightBracket, ⟨1, 0, 1, 1⟩⟩]

/-- Modelled from the spec: the lexer output for `"[\n]"` (the newline
token at byte 1; `]` on line 1, column 0). -/
def newlineBracketToks : List TokenWithRange :=
  [⟨.LeftBracket, ⟨0, 0, 0, 1⟩⟩,
   ⟨.NewLine, ⟨1, 0, 1, 1⟩⟩,
   ⟨.RightBracket, ⟨2, 1, 0, 1⟩⟩]

/-- Modelled from the spec: the lexer output for `"[,]"`. -/
def commaBracketToks : List TokenWithRange :=
  [⟨.LeftBracket, ⟨0, 0, 0, 1⟩⟩,
   ⟨.Comma, ⟨1, 0, 1, 1⟩⟩,
   ⟨.RightBracket, ⟨2, 0, 2, 1⟩⟩]

/-- Modelled from the spec: the lexer output for `"Option::Some(123)"`
(the variant path at [0,12), `(` at 12, `123` at [13,16), `)` at 16). -/
def optionSome123Toks : List TokenWithRange :=
  [⟨.Variant "Option" "Some", ⟨0, 0, 0, 12⟩⟩,
   ⟨.LeftParen, ⟨12, 0, 12, 1⟩⟩,
   ⟨.Number (.I32 123), ⟨13, 0, 13, 3⟩⟩,
   ⟨.RightParen, ⟨16, 0, 16, 1⟩⟩]

/-- Modelled from the spec: the lexer output for `"Option::None"`. -/
def optionNoneToks : List TokenWithRange :=
  [⟨.Variant "Option" "None", ⟨0, 0, 0, 12⟩⟩]

/-- Modelled from the spec: the lexer output for `"Option::Some"`
(a variant path with no payload tokens after it). -/
def optionSomeBareToks : List TokenWithRange :=
  [⟨.Variant "Option" "Some", ⟨0, 0, 0, 12⟩⟩]

/-- Modelled from the spec: the lexer output for `"[1: 2]"` without the
enclosing brackets, as the parser state at the start of the list-body
loop (`1` at [1,2), `:` at 2, `2` at [4,5), `]` at 5). -/
def mapBodyToks : List TokenWithRange :=
  [⟨.Number (.I32 1), ⟨1, 0, 1, 1⟩⟩,
   ⟨.Colon, ⟨2, 0, 2, 1⟩⟩,
   ⟨.Number (.I32 2), ⟨4, 0, 4, 1⟩⟩,
   ⟨.RightBracket, ⟨5, 0, 5, 1⟩⟩]

/-- The four signed integer buckets. -/
inductive SBucket where
  | i8
  | i16
  | i32
  | i64
deriving DecidableEq, Repr

/-- The signed-bucket number token with stored unsigned magnitude `v`. -/
def mkS : SBucket → Nat → NumberToken
  | .i8, v => .I8 v
  | .i16, v => .I16 v
  | .i32, v => .I32 v
  | .i64, v => .I64 v

/-- `Ix::MAX` of the signed bucket. -/
def sMax : SBucket → Nat
  | .i8 => 127
  | .i16 => 32767
  | .i32 => 2147483647
  | .i64 => 9223372036854775807

/-- `2 ^ w` for the signed bucket of width `w`. -/
def sMod : SBucket → Nat
  | .i8 => 256
  | .i16 => 65536
  | .i32 => 4294967296
  | .i64 => 18446744073709551616

/-- The bucket name as it appears in the standalone overflow message. -/
def sName : SBucket → String
  | .i8 => "i8"
  | .i16 => "i16"
  | .i32 => "i32"
  | .i64 => "i64"

/-- The bucket name as it appears in the cannot-convert-to-negative
message (the `i8` format string of normalizer.rs line 326 has no
trailing period; the other three do). -/
def sNameDot : SBucket → String
  | .i8 => "i8"
  | .i16 => "i16."
  | .i32 => "i32."
  | .i64 => "i64."

/-- The four unsigned integer buckets. -/
inductive UBucket where
  | u8
  | u16
  | u32
  | u64
deriving DecidableEq, Repr

/-- The unsigned-bucket number token with stored magnitude `v`. -/
def mkU : UBucket → Nat → NumberToken
  | .u8, v => .U8 v
  | .u16, v => .U16 v
  | .u32, v => .U32 v
  | .u64, v => .U64 v

/-- The two float buckets. -/
inductive FBucket where
  | f32
  | f64
deriving DecidableEq, Repr

/-- The float-bucket number token with IEEE-754 bit pattern `bits`. -/
def mkF : FBucket → Nat → NumberToken
  | .f32, bits => .F32 bits
  | .f64, bits => .F64 bits

/-- `is_nan` of the float bucket. -/
def isNaNF : FBucket → Nat → Bool
  | .f32, bits => f32IsNaN bits
  | .f64, bits => f64IsNaN bits

/-- IEEE-754 negation (sign-bit flip) of the float bucket. -/
def negF : FBucket → Nat → Nat
  | .f32, bits => f32Neg bits
  | .f64, bits => f64Neg bits

/-- The token at lookahead offset `i` of a parser state (ignoring a
possible upstream error), used to phrase the List-vs-Map lookahead. -/
def tokenAt (st : PState) (i : Nat) : Option Token :=
  (st.toks.get? i).map (fun t => t.token)

/-- Modelled from the spec: the lexer output for `"(1, 2)"`. -/
def tuple12Toks : List TokenWithRange :=
  [⟨.LeftParen, ⟨0, 0, 0, 1⟩⟩,
   ⟨.Number (.I32 1), ⟨1, 0, 1, 1⟩⟩,
   ⟨.Comma, ⟨2, 0, 2, 1⟩⟩,
   ⟨.Number (.I32 2), ⟨4, 0, 4, 1⟩⟩,
   ⟨.RightParen, ⟨5, 0, 5, 1⟩⟩]

/-! ## Theorems -/

/-- C1 counterexample: the claim requires that a signed integer literal
preceded by a minus sign is accepted iff the negated value lies in
`[Ix::MIN, 0)` — a range that excludes 0 — yet the normalizer accepts
`-0_i8` (token stream `Minus`, `Number I8 0`) and emits `Number I8 0`,
although `-0 = 0` is not in `[-128, 0)`. -/
theorem c1_counterexample :
    normalizeRun minusZeroI8Toks = ([⟨.Number (.I8 0), ⟨0, 0, 0, 5⟩⟩], none) ∧
    ¬((-128 : Int) ≤ -(0 : Int) ∧ -(0 : Int) < 0) :=
  ⟨rfl, by decide⟩

/-- C1 (amended): for every signed bucket `Ix` and stored unsigned
magnitude `v`, the normalizer accepts a bare `Number Ix v` token iff
`v ≤ Ix::MAX` (i.e. the value is in `[0, Ix::MAX]`), and otherwise
reports the positioned overflow error; preceded by a `Minus` token it
succeeds iff `-v` is in `[Ix::MIN, 0]` (i.e. `v ≤ Ix::MAX + 1`),
emitting a `Number` token holding the two's-complement bit pattern of
`-v` with the joined range, and otherwise reports the positioned
cannot-convert-to-negative error. -/
theorem c1_signed_range :
    ∀ (b : SBucket) (v : Nat) (r1 r2 : Location),
      (normalizeRun [⟨.Number (mkS b v), r2⟩] =
        if v ≤ sMax b then ([⟨.Number (mkS b v), r2⟩], none)
        else ([], some (.MessageWithLocation (bareOverflowMsg (sName b) v) r2))) ∧
      (normalizeRun [⟨.Minus, r1⟩, ⟨.Number (mkS b v), r2⟩] =
        if v ≤ sMax b + 1 then
          ([⟨.Number (mkS b ((sMod b - v) % sMod b)), fromRangePair r1 r2⟩], none)
        else
          ([], some (.MessageWithLocation (negConvertMsg (sNameDot b) v)
            (fromRangePair r1 r2)))) := by
  intro b v r1 r2
  cases b <;>
    refine ⟨?_, ?_⟩ <;>
      simp [normalizeRun, normalizeRunF, normalize, stepNumber, stepMinus,
        mkS, sMax, sMod, sName, sNameDot] <;>
      (try split_ifs) <;>
      first
        | rfl
        | omega

/-- C7: a `Minus` token followed by a number token of any unsigned
bucket makes the normalizer report the unsigned-minus error positioned
at the joined range of the two tokens; in particular the token stream of
`"-1_u8"` fails with that error at byte range `[0,5)`. -/
theorem c7_minus_unsigned :
    (∀ (b : UBucket) (v : Nat) (r1 r2 : Location) (rest : List TokenWithRange),
      normalize (⟨.Minus, r1⟩ :: ⟨.Number (mkU b v), r2⟩ :: rest) =
        some (.error (.MessageWithLocation
          "The minus sign cannot be applied to unsigned numbers."
          (fromRangePair r1 r2)), ⟨.Number (mkU b v), r2⟩ :: rest)) ∧
    normalizeRun minusOneU8Toks =
      ([], some (.MessageWithLocation
        "The minus sign cannot be applied to unsigned numbers." ⟨0, 0, 0, 5⟩)) := by
  refine ⟨?_, rfl⟩
  intro b v r1 r2 rest
  cases b <;> rfl

/-- C8: a `Plus` or `Minus` token followed by a float number token
(either width): when the float is NaN the normalizer reports the
sign-cannot-be-applied-to-NaN error at the joined range; otherwise
`Minus` emits the same-width float token with the value negated
(IEEE-754 sign-bit flip) and the joined range, and `Plus` emits the
number token unchanged with the joined range. -/
theorem c8_sign_float :
    ∀ (fb : FBucket) (bits : Nat) (r1 r2 : Location) (rest : List TokenWithRange),
      (normalize (⟨.Minus, r1⟩ :: ⟨.Number (mkF fb bits), r2⟩ :: rest) =
        some (if isNaNF fb bits then
          (.error (.MessageWithLocation "The minus sign cannot be applied to NaN."
            (fromRangePair r1 r2)), ⟨.Number (mkF fb bits), r2⟩ :: rest)
        else
          (.ok ⟨.Number (mkF fb (negF fb bits)), fromRangePair r1 r2⟩, rest))) ∧
      (normalize (⟨.Plus, r1⟩ :: ⟨.Number (mkF fb bits), r2⟩ :: rest) =
        some (if isNaNF fb bits then
          (.error (.MessageWithLocation "The plus sign cannot be applied to NaN."
            (fromRangePair r1 r2)), ⟨.Number (mkF fb bits), r2⟩ :: rest)
        else
          (.ok ⟨.Number (mkF fb bits), fromRangePair r1 r2⟩, rest))) := by
  intro fb bits r1 r2 rest
  cases fb <;>
    refine ⟨?_, ?_⟩ <;>
      simp only [normalize, stepMinus, stepPlus, mkF, isNaNF, negF]

/-- After collapsing a newline run, the head of the remaining stream is
not a newline. -/
theorem collectNewlines_head :
    ∀ (s e : Location) (ts cs : List TokenWithRange) (c : TokenWithRange),
      collectNewlines s ts = (e, c :: cs) → c.token ≠ .NewLine := by
  intro s e ts
  induction ts generalizing s with
  | nil =>
    intro cs c h
    simp [collectNewlines] at h
  | cons t rest ih =>
    intro cs c h
    obtain ⟨tok, rng⟩ := t
    cases tok <;> simp only [collectNewlines] at h
    case NewLine => exact ih _ _ _ h
    all_goals
      rcases h with ⟨-, -, -⟩
      simp

/-- After skipping trailing newlines, the head of the remaining stream
is not a newline. -/
theorem skipNewlines_head :
    ∀ (ts cs : List TokenWithRange) (c : TokenWithRange),
      skipNewlines ts = c :: cs → c.token ≠ .NewLine := by
  intro ts
  induction ts with
  | nil =>
    intro cs c h
    simp [skipNewlines] at h
  | cons t rest ih =>
    intro cs c h
    obtain ⟨tok, rng⟩ := t
    cases tok <;> simp only [skipNewlines, List.cons.injEq] at h
    case NewLine => exact ih _ _ h
    all_goals
      rcases h with ⟨h2, -⟩
      subst h2
      simp

/-- A successful `stepPlus` emits a number token. -/
theorem stepPlus_ok_shape :
    ∀ (s : Location) (rest rest' : List TokenWithRange) (u : TokenWithRange),
      stepPlus s rest = (.ok u, rest') →
      u.token ≠ .NewLine ∧ u.token ≠ .Comma := by
  intro s rest rest' u h
  rcases rest with _ | ⟨⟨tok, rng⟩, rest2⟩
  · simp [stepPlus] at h
  · cases tok
    case Number num =>
      cases num <;> simp [stepPlus] at h <;> (try split at h) <;> (try simp at h) <;>
        obtain ⟨h1, -⟩ := h <;> subst h1 <;> simp
    all_goals simp [stepPlus] at h

/-- A successful `stepMinus` emits a number token. -/
theorem stepMinus_ok_shape :
    ∀ (s : Location) (rest rest' : List TokenWithRange) (u : TokenWithRange),
      stepMinus s rest = (.ok u, rest') →
      u.token ≠ .NewLine ∧ u.token ≠ .Comma := by
  intro s rest rest' u h
  rcases rest with _ | ⟨⟨tok, rng⟩, rest2⟩
  · simp [stepMinus] at h
  · cases tok
    case Number num =>
      cases num <;> simp [stepMinus] at h <;> (try split at h) <;> (try simp at h) <;>
        obtain ⟨h1, -⟩ := h <;> subst h1 <;> simp
    all_goals simp [stepMinus] at h

/-- A successful `stepNumber` emits the number token itself. -/
theorem stepNumber_ok_shape :
    ∀ (t : TokenWithRange) (num : NumberToken) (rest rest' : List TokenWithRange)
      (u : TokenWithRange),
      stepNumber t num rest = (.ok u, rest') → u = t ∧ rest' = rest := by
  intro t num rest rest' u h
  cases num <;> simp [stepNumber] at h <;> (try split at h) <;> (try simp at h) <;>
    exact ⟨h.1.symm, h.2.symm⟩

/-- A successful `stepNewLine` emits a newline or a comma, and leaves a
stream whose head cannot recreate a forbidden adjacency. -/
theorem stepNewLine_ok_shape :
    ∀ (s : Location) (rest rest' : List TokenWithRange) (u : TokenWithRange),
      stepNewLine s rest = (.ok u, rest') →
      (u.token = .NewLine ∨ u.token = .Comma) ∧
      (∀ y ys, rest' = y :: ys →
        (u.token = .NewLine → y.token ≠ .NewLine ∧ y.token ≠ .Comma) ∧
        (u.token = .Comma → y.token ≠ .NewLine)) := by
  intro s rest rest' u h
  rw [stepNewLine] at h
  rcases hc : collectNewlines s rest with ⟨endR, rest1⟩
  rw [hc] at h
  rcases rest1 with _ | ⟨c, rest2⟩
  · simp at h
    obtain ⟨h1, h2⟩ := h
    subst h1
    subst h2
    refine ⟨Or.inl rfl, ?_⟩
    intro y ys hy
    simp at hy
  · by_cases hcc : c.token = .Comma
    · simp [hcc] at h
      obtain ⟨h1, h2⟩ := h
      subst h1
      subst h2
      refine ⟨Or.inr rfl, ?_⟩
      intro y ys hy
      exact ⟨fun hu => absurd hu (by simp), fun _ => skipNewlines_head _ _ _ hy⟩
    · simp [hcc] at h
      obtain ⟨h1, h2⟩ := h
      subst h1
      subst h2
      refine ⟨Or.inl rfl, ?_⟩
      intro y ys hy
      injection hy with hy1 hy2
      subst hy1
      exact ⟨fun _ => ⟨collectNewlines_head _ _ _ _ _ hc, hcc⟩,
        fun hu => absurd hu (by simp)⟩

/-- The shape of a successful `normalize` pull: a newline is emitted
only when the consumed head was a newline, a comma only when it was a
newline or a comma; and after emitting a newline the remaining upstream
head is neither a newline nor a comma, after emitting a comma it is not
a newline. -/
theorem normalize_ok_shape :
    ∀ (ts rest : List TokenWithRange) (u : TokenWithRange),
      normalize ts = some (.ok u, rest) →
      (∃ x xs, ts = x :: xs ∧
        (u.token = .NewLine → x.token = .NewLine) ∧
        (u.token = .Comma → x.token = .NewLine ∨ x.token = .Comma)) ∧
      (∀ y ys, rest = y :: ys →
        (u.token = .NewLine → y.token ≠ .NewLine ∧ y.token ≠ .Comma) ∧
        (u.token = .Comma → y.token ≠ .NewLine)) := by
  intro ts rest u h
  rcases ts with _ | ⟨⟨tok, rng⟩, xs⟩
  · simp [normalize] at h
  · cases tok
    case NewLine =>
      have h' : stepNewLine rng xs = (.ok u, rest) := by
        simpa [normalize] using h
      obtain ⟨hu, hpost⟩ := stepNewLine_ok_shape _ _ _ _ h'
      exact ⟨⟨_, _, rfl, fun _ => rfl, fun _ => Or.inl rfl⟩, hpost⟩
    case Comma =>
      simp [normalize] at h
      obtain ⟨h1, h2⟩ := h
      subst h1
      subst h2
      refine ⟨⟨_, _, rfl, fun hu => absurd hu (by simp), fun _ => Or.inr rfl⟩, ?_⟩
      intro y ys hy
      exact ⟨fun hu => absurd hu (by simp), fun _ => skipNewlines_head _ _ _ hy⟩
    case Plus =>
      have h' : stepPlus rng xs = (.ok u, rest) := by
        simpa [normalize] using h
      obtain ⟨h1, h2⟩ := stepPlus_ok_shape _ _ _ _ h'
      exact ⟨⟨_, _, rfl, fun hu => absurd hu h1, fun hu => absurd hu h2⟩,
        fun y ys _ => ⟨fun hu => absurd hu h1, fun hu => absurd hu h2⟩⟩
    case Minus =>
      have h' : stepMinus rng xs = (.ok u, rest) := by
        simpa [normalize] using h
      obtain ⟨h1, h2⟩ := stepMinus_ok_shape _ _ _ _ h'
      exact ⟨⟨_, _, rfl, fun hu => absurd hu h1, fun hu => absurd hu h2⟩,
        fun y ys _ => ⟨fun hu => absurd hu h1, fun hu => absurd hu h2⟩⟩
    case Number num =>
      have h' : stepNumber ⟨.Number num, rng⟩ num xs = (.ok u, rest) := by
        simpa [normalize] using h
      obtain ⟨hu, hrest⟩ := stepNumber_ok_shape _ _ _ _ _ h'
      subst hu
      exact ⟨⟨_, _, rfl, fun hx => absurd hx (by simp), fun hx => absurd hx (by simp)⟩,
        fun y ys _ => ⟨fun hx => absurd hx (by simp), fun hx => absurd hx (by simp)⟩⟩
    all_goals
      simp [normalize] at h
      obtain ⟨h1, h2⟩ := h
      subst h1
      subst h2
      exact ⟨⟨_, _, rfl, fun hx => absurd hx (by simp), fun hx => absurd hx (by simp)⟩,
        fun y ys _ => ⟨fun hx => absurd hx (by simp), fun hx => absurd hx (by simp)⟩⟩

/-- Strengthened invariant for the C3 induction: the output of any run
of `normalize` pulls has no forbidden adjacency, and its first token
constrains the head of the input the run started from. -/
theorem normalizeRunF_noBad :
    ∀ (f : Nat) (ts : List TokenWithRange),
      noBadAdjacency (normalizeRunF f ts).1 = true ∧
      (∀ u us, (normalizeRunF f ts).1 = u :: us →
        (u.token = .NewLine → ∃ x xs, ts = x :: xs ∧ x.token = .NewLine) ∧
        (u.token = .Comma → ∃ x xs, ts = x :: xs ∧
          (x.token = .NewLine ∨ x.token = .Comma))) := by
  intro f
  induction f with
  | zero =>
    intro ts
    exact ⟨rfl, by simp [normalizeRunF]⟩
  | succ n ih =>
    intro ts
    rcases hn : normalize ts with _ | ⟨r, rest⟩
    · refine ⟨by simp [normalizeRunF, hn, noBadAdjacency], ?_⟩
      intro u us hu
      simp [normalizeRunF, hn] at hu
    · rcases r with e | t
      · refine ⟨by simp [normalizeRunF, hn, noBadAdjacency], ?_⟩
        intro u us hu
        simp [normalizeRunF, hn] at hu
      · have hout : (normalizeRunF (n + 1) ts).1 = t :: (normalizeRunF n rest).1 := by
          simp [normalizeRunF, hn]
        obtain ⟨hshape, hpost⟩ := normalize_ok_shape _ _ _ hn
        refine ⟨?_, ?_⟩
        · rw [hout]
          rcases hw : (normalizeRunF n rest).1 with _ | ⟨w, ws⟩
          · simp [noBadAdjacency]
          · have ihrest := ih rest
            have hnoBad : noBadAdjacency (w :: ws) = true := by
              rw [← hw]; exact ihrest.1
            have hwhead := ihrest.2 w ws hw
            have hbad : badPair t.token w.token = false := by
              simp only [badPair, Bool.or_eq_false_iff, Bool.and_eq_false_iff,
                decide_eq_false_iff_not]
              refine ⟨⟨?_, ?_⟩, ?_⟩
              · -- not (t newline and w newline)
                by_cases h1 : t.token = .NewLine
                · right
                  intro h2
                  obtain ⟨x, xs, hx, hxt⟩ := hwhead.1 (by simpa using h2)
                  have := (hpost x xs hx).1 h1
                  exact this.1 hxt
                · left
                  simpa using h1
              · -- not (t comma and w newline)
                by_cases h1 : t.token = .Comma
                · right
                  intro h2
                  obtain ⟨x, xs, hx, hxt⟩ := hwhead.1 (by simpa using h2)
                  exact (hpost x xs hx).2 h1 hxt
                · left
                  simpa using h1
              · -- not (t newline and w comma)
                by_cases h1 : t.token = .NewLine
                · right
                  intro h2
                  obtain ⟨x, xs, hx, hxt⟩ := hwhead.2 (by simpa using h2)
                  have := (hpost x xs hx).1 h1
                  rcases hxt with hxt | hxt
                  · exact this.1 hxt
                  · exact this.2 hxt
                · left
                  simpa using h1
            simp [noBadAdjacency, hbad, hnoBad]
        · intro u us hu
          rw [hout] at hu
          have hut : u = t := by
            have := congrArg List.head? hu
            simp at this
            exact this.symm
          subst hut
          obtain ⟨x, xs, hx, hx1, hx2⟩ := hshape
          exact ⟨fun hnl => ⟨x, xs, hx, hx1 hnl⟩, fun hcm => ⟨x, xs, hx, hx2 hcm⟩⟩

/-- C3: for every input token stream, the token sequence emitted by the
normalizer stage (the tokens before its first error, if any) never
contains two adjacent `NewLine` tokens and never contains a `Comma`
adjacent to a `NewLine` in either order. -/
theorem c3_no_bad_adjacency :
    ∀ (ts : List TokenWithRange), noBadAdjacency (normalizeRun ts).1 = true :=
  fun ts => (normalizeRunF_noBad ts.length ts).1

/-- A converted number token is a well-formed node. -/
theorem convertNumberToken_wf : ∀ num, NodeWF (convertNumberToken num) := by
  intro num
  cases num <;> exact NodeWF.num _

/-- Grand induction for C6: every node (or node component) produced by
any parser function is well formed, provided the accumulators passed to
the loops are. -/
theorem parserWF :
    ∀ n : Nat,
      (∀ st node st', parseNode n st = .ok (node, st') → NodeWF node) ∧
      (∀ st node st', parseTupleVariant n st = .ok (node, st') → NodeWF node) ∧
      (∀ st node st', parseStructVariant n st = .ok (node, st') → NodeWF node) ∧
      (∀ st kvps st', parseKeyValuePairs n st = .ok (kvps, st') →
        ∀ p ∈ kvps, NodeWF (Prod.snd p)) ∧
      (∀ acc st kvps st', parseKvpLoop n acc st = .ok (kvps, st') →
        (∀ p ∈ acc, NodeWF (Prod.snd p)) → ∀ p ∈ kvps, NodeWF (Prod.snd p)) ∧
      (∀ st node st', parseObject n st = .ok (node, st') → NodeWF node) ∧
      (∀ st node st', parseList n st = .ok (node, st') → NodeWF node) ∧
      (∀ st node st', parseListBody n st = .ok (node, st') → NodeWF node) ∧
      (∀ lt items nvps st r, parseListLoop n lt items nvps st = .ok r →
        (∀ x ∈ items, NodeWF x) →
        (∀ p ∈ nvps, NodeWF (Prod.fst p) ∧ NodeWF (Prod.snd p)) →
        (∀ x ∈ r.2.1, NodeWF x) ∧
        (∀ p ∈ r.2.2.1, NodeWF (Prod.fst p) ∧ NodeWF (Prod.snd p))) ∧
      (∀ lt items nvps item st r, parseListContinue n lt items nvps item st = .ok r →
        (∀ x ∈ items, NodeWF x) →
        (∀ p ∈ nvps, NodeWF (Prod.fst p) ∧ NodeWF (Prod.snd p)) →
        NodeWF item →
        (∀ x ∈ r.2.1, NodeWF x) ∧
        (∀ p ∈ r.2.2.1, NodeWF (Prod.fst p) ∧ NodeWF (Prod.snd p))) ∧
      (∀ st node st', parseTuple n st = .ok (node, st') → NodeWF node) ∧
      (∀ acc st items st', parseTupleItemsLoop n acc st = .ok (items, st') →
        (∀ x ∈ acc, NodeWF x) → ∀ x ∈ items, NodeWF x) := by
  intro n
  induction n with
  | zero =>
    refine ⟨?_, ?_, ?_, ?_, ?_, ?_, ?_, ?_, ?_, ?_, ?_, ?_⟩ <;>
      · intros
        simp_all [parseNode, parseTupleVariant, parseStructVariant,
          parseKeyValuePairs, parseKvpLoop, parseObject, parseList, parseListBody,
          parseListLoop, parseListContinue, parseTuple, parseTupleItemsLoop]
  | succ n ih =>
    obtain ⟨ihNode, ihTV, ihSV, ihKVP, ihKvpLoop, ihObj, ihList, ihListBody,
      ihListLoop, ihListCont, ihTuple, ihTupLoop⟩ := ih
    refine ⟨?_, ?_, ?_, ?_, ?_, ?_, ?_, ?_, ?_, ?_, ?_, ?_⟩
    · -- parseNode
      intro st node st' h
      simp only [parseNode] at h
      repeat' split at h
      all_goals try simp at h
      all_goals try exact ihTV _ _ _ h
      all_goals try exact ihSV _ _ _ h
      all_goals try exact ihObj _ _ _ h
      all_goals try exact ihList _ _ _ h
      all_goals try exact ihTuple _ _ _ h
      all_goals
        obtain ⟨h1, -⟩ := h
        subst h1
        first
          | exact convertNumberToken_wf _
          | exact NodeWF.bool _
          | exact NodeWF.char _
          | exact NodeWF.str _
          | exact NodeWF.date _
          | exact NodeWF.hex _
          | exact NodeWF.variantUnit _ _
    · -- parseTupleVariant
      intro st node st' h
      simp only [parseTupleVariant] at h
      repeat' split at h
      all_goals try simp at h
      all_goals obtain ⟨h1, -⟩ := h
      all_goals subst h1
      · -- single item: Value form
        rename_i itemsJunk x1 heqLoop
        exact NodeWF.variantValue _ _ _
          (ihTupLoop _ _ _ _ heqLoop (by simp) _ (by simp))
      · -- two or more items: Tuple form
        rename_i itemsAll stLoop heqLoop xJunk stParen heqParen itemsJunk hnotNil hnotSingle
        refine NodeWF.variantTuple _ _ _ ?_ ?_
        · rcases itemsAll with _ | ⟨a, _ | ⟨b, l⟩⟩
          · exact absurd rfl hnotNil
          · exact absurd rfl (hnotSingle a)
          · simp
        · intro x hx
          exact ihTupLoop _ _ _ _ heqLoop (by simp) x hx
    · -- parseStructVariant
      intro st node st' h
      simp only [parseStructVariant] at h
      repeat' split at h
      all_goals try simp at h
      obtain ⟨h1, -⟩ := h
      subst h1
      exact NodeWF.variantObject _ _ _ (ihKVP _ _ _ (by assumption))
    · -- parseKeyValuePairs
      intro st kvps st' h
      simp only [parseKeyValuePairs] at h
      repeat' split at h
      all_goals try simp at h
      obtain ⟨h1, -⟩ := h
      subst h1
      exact ihKvpLoop _ _ _ _ (by assumption) (by simp)
    · -- parseKvpLoop
      intro acc st kvps st' h hacc
      simp only [parseKvpLoop] at h
      repeat' split at h
      all_goals try simp at h
      · -- end of stream
        obtain ⟨h1, -⟩ := h
        subst h1
        exact hacc
      · -- right brace
        obtain ⟨h1, -⟩ := h
        subst h1
        exact hacc
      · -- separator found: recurse
        refine ihKvpLoop _ _ _ _ h ?_
        intro p hp
        rcases List.mem_append.mp hp with hp | hp
        · exact hacc p hp
        · simp at hp
          subst hp
          exact ihNode _ _ _ (by assumption)
      · -- separator absent: stop
        obtain ⟨h1, -⟩ := h
        subst h1
        intro p hp
        rcases List.mem_append.mp hp with hp | hp
        · exact hacc p hp
        · simp at hp
          subst hp
          exact ihNode _ _ _ (by assumption)
    · -- parseObject
      intro st node st' h
      simp only [parseObject] at h
      repeat' split at h
      all_goals try simp at h
      obtain ⟨h1, -⟩ := h
      subst h1
      exact NodeWF.object _ (ihKVP _ _ _ (by assumption))
    · -- parseList
      intro st node st' h
      simp only [parseList] at h
      repeat' split at h
      all_goals try simp at h
      exact ihListBody _ _ _ h
    · -- parseListBody
      intro st node st' h
      simp only [parseListBody] at h
      repeat' split at h
      all_goals try simp at h
      all_goals obtain ⟨h1, -⟩ := h
      all_goals subst h1
      · -- List result
        exact NodeWF.list _ ((ihListLoop _ _ _ _ _ (by assumption) (by simp) (by simp)).1)
      · -- Map result
        refine NodeWF.map _ ?_ ?_
        · exact fun p hp =>
            ((ihListLoop _ _ _ _ _ (by assumption) (by simp) (by simp)).2 p hp).1
        · exact fun p hp =>
            ((ihListLoop _ _ _ _ _ (by assumption) (by simp) (by simp)).2 p hp).2
    · -- parseListLoop
      intro lt items nvps st r h hitems hnvps
      simp only [parseListLoop] at h
      repeat' split at h
      all_goals try simp at h
      · -- end of stream
        subst h
        exact ⟨hitems, hnvps⟩
      · -- right bracket
        subst h
        exact ⟨hitems, hnvps⟩
      · -- element parsed, continue
        exact ihListCont _ _ _ _ _ _ h hitems hnvps (ihNode _ _ _ (by assumption))
    · -- parseListContinue
      intro lt items nvps item st r h hitems hnvps hitem
      simp only [parseListContinue] at h
      repeat' split at h
      all_goals try simp at h
      · -- list form, separator found: recurse
        refine ihListLoop _ _ _ _ _ h ?_ hnvps
        intro x hx
        rcases List.mem_append.mp hx with hx | hx
        · exact hitems x hx
        · simp at hx
          subst hx
          exact hitem
      · -- list form, separator absent: stop
        subst h
        refine ⟨?_, hnvps⟩
        intro x hx
        rcases List.mem_append.mp hx with hx | hx
        · exact hitems x hx
        · simp at hx
          subst hx
          exact hitem
      · -- map form, separator found: recurse
        refine ihListLoop _ _ _ _ _ h hitems ?_
        intro p hp
        rcases List.mem_append.mp hp with hp | hp
        · exact hnvps p hp
        · simp at hp
          subst hp
          exact ⟨hitem, ihNode _ _ _ (by assumption)⟩
      · -- map form, separator absent: stop
        subst h
        refine ⟨hitems, ?_⟩
        intro p hp
        rcases List.mem_append.mp hp with hp | hp
        · exact hnvps p hp
        · simp at hp
          subst hp
          exact ⟨hitem, ihNode _ _ _ (by assumption)⟩
    · -- parseTuple
      intro st node st' h
      simp only [parseTuple] at h
      repeat' split at h
      all_goals try simp at h
      obtain ⟨h1, -⟩ := h
      subst h1
      rename_i hnonempty
      refine NodeWF.tuple _ (by simpa using hnonempty) ?_
      exact ihTupLoop _ _ _ _ (by assumption) (by simp)
    · -- parseTupleItemsLoop
      intro acc st items st' h hacc
      simp only [parseTupleItemsLoop] at h
      repeat' split at h
      all_goals try simp at h
      · -- end of stream
        obtain ⟨h1, -⟩ := h
        subst h1
        exact hacc
      · -- right paren
        obtain ⟨h1, -⟩ := h
        subst h1
        exact hacc
      · -- separator found: recurse
        refine ihTupLoop _ _ _ _ h ?_
        intro x hx
        rcases List.mem_append.mp hx with hx | hx
        · exact hacc x hx
        · simp at hx
          subst hx
          exact ihNode _ _ _ (by assumption)
      · -- separator absent: stop
        obtain ⟨h1, -⟩ := h
        subst h1
        intro x hx
        rcases List.mem_append.mp hx with hx | hx
        · exact hacc x hx
        · simp at hx
          subst hx
          exact ihNode _ _ _ (by assumption)

/-- C6: every node produced by a successful parse is well formed
(`NodeWF`): in particular every `Tuple` node is non-empty and every
variant with a parenthesized payload is either the `Value` form or a
`Tuple` form with at least two items; parsing `"()"` yields the error
"Tuple can not be empty." and parsing `"Type::Member()"` yields the
error "The value of tuple style variant can not be empty.". -/
theorem c6_tuple_variant_invariants :
    (∀ (fuel : Nat) (st : PState) (node : AsonNode) (st' : PState),
      parseNode fuel st = .ok (node, st') → NodeWF node) ∧
    parseFromTokens 9 (pipelineState emptyTupleToks) =
      .error (.MessageWithLocation "Tuple can not be empty." ⟨1, 0, 1, 0⟩) ∧
    parseFromTokens 9 (pipelineState emptyVariantToks) =
      .error (.MessageWithLocation "The value of tuple style variant can not be empty."
        ⟨13, 0, 13, 0⟩) :=
  ⟨fun fuel st node st' h => (parserWF fuel).1 st node st' h, rfl, rfl⟩

/-- Witness for C6: the parse of `"(1, 2)"` produces a node that the
theorem certifies well formed. -/
theorem c6_witness :
    NodeWF (AsonNode.Tuple [.Number (.I32 1), .Number (.I32 2)]) :=
  c6_tuple_variant_invariants.1 9 (initState tuple12Toks)
    (AsonNode.Tuple [.Number (.I32 1), .Number (.I32 2)])
    ⟨[], none, ⟨5, 0, 5, 1⟩⟩ rfl

/-- C4: when the root node parses successfully but a token survives,
both the parser entry point and the decoder entry point return the
error "Document has more than one node." positioned at the surviving
token's start; in particular the token stream of `"true false"` fails
with that error at column 5 through both entry points. -/
theorem c4_more_than_one_node :
    (∀ (fuel : Nat) (st : PState) (root : AsonNode) (st1 : PState)
        (t : TokenWithRange) (rest : List TokenWithRange),
      parseNode fuel st = .ok (root, st1) → st1.toks = t :: rest →
      parseFromTokens fuel st =
        .error (.MessageWithLocation "Document has more than one node."
          (startPos t.range))) ∧
    (∀ (α : Type) (d : PState → DeResult α) (st : PState) (a : α) (st1 : PState)
        (t : TokenWithRange) (rest : List TokenWithRange),
      d st = .ok a st1 → st1.toks = t :: rest →
      deFromTokens d st =
        .err (.MessageWithLocation "Document has more than one node."
          (startPos t.range)) st1) ∧
    parseFromTokens 9 (pipelineState trueFalseToks) =
      .error (.MessageWithLocation "Document has more than one node." ⟨5, 0, 5, 0⟩) ∧
    deFromTokens deserializeBool (pipelineState trueFalseToks) =
      .err (.MessageWithLocation "Document has more than one node." ⟨5, 0, 5, 0⟩)
        ⟨[⟨.Boolean false, ⟨5, 0, 5, 5⟩⟩], none, ⟨0, 0, 0, 4⟩⟩ := by
  refine ⟨?_, ?_, rfl, rfl⟩
  · intro fuel st root st1 t rest h1 h2
    simp [parseFromTokens, h1, nextTokenP, h2]
  · intro α d st a st1 t rest h1 h2
    simp [deFromTokens, h1, h2]

/-- Witness for C4: both general conjuncts applied to the concrete
token stream of `"true false"`. -/
theorem c4_witness :
    parseFromTokens 9 (pipelineState trueFalseToks) =
      .error (.MessageWithLocation "Document has more than one node." ⟨5, 0, 5, 0⟩) ∧
    deFromTokens deserializeBool (pipelineState trueFalseToks) =
      .err (.MessageWithLocation "Document has more than one node." ⟨5, 0, 5, 0⟩)
        ⟨[⟨.Boolean false, ⟨5, 0, 5, 5⟩⟩], none, ⟨0, 0, 0, 4⟩⟩ :=
  ⟨c4_more_than_one_node.1 9 (pipelineState trueFalseToks) (.Boolean true)
      ⟨[⟨.Boolean false, ⟨5, 0, 5, 5⟩⟩], none, ⟨0, 0, 0, 4⟩⟩
      ⟨.Boolean false, ⟨5, 0, 5, 5⟩⟩ [] rfl rfl,
   c4_more_than_one_node.2.1 Bool deserializeBool (pipelineState trueFalseToks) true
      ⟨[⟨.Boolean false, ⟨5, 0, 5, 5⟩⟩], none, ⟨0, 0, 0, 4⟩⟩
      ⟨.Boolean false, ⟨5, 0, 5, 5⟩⟩ [] rfl rfl⟩

/-- C5 counterexample: the claim says the missing separator in
`"{id:123 name:\"foo\"}"` is reported as an expect-comma-or-newline
error, but the parser reports "Expect token: right brace." (the
expect-comma-or-newline error exists only in commented-out code); the
position, column 8, is as the claim states. -/
theorem c5_counterexample :
    parseFromTokens 20 (pipelineState objMissingSepToks) =
      .error (.MessageWithLocation "Expect token: right brace." ⟨8, 0, 8, 0⟩) ∧
    "Expect token: right brace." ≠ "Expect a comma or new-line." :=
  ⟨rfl, by decide⟩

/-- C5 (amended): in every bracketed production a missing separator
between two elements is reported at the position of the next element,
but as the enclosing production's expect-close error ("Expect token:
right brace/bracket/parenthese.") produced by `consume_token`, not as
an expect-comma-or-newline error; concretely for the object, list and
tuple forms. -/
theorem c5_missing_separator :
    (∀ (st : PState) (t : TokenWithRange) (rest : List TokenWithRange)
        (expected : Token) (desc : String),
      st.toks = t :: rest → t.token ≠ expected →
      consumeToken st expected desc =
        .error (.MessageWithLocation ("Expect token: " ++ desc ++ ".")
          (startPos t.range))) ∧
    parseFromTokens 20 (pipelineState objMissingSepToks) =
      .error (.MessageWithLocation "Expect token: right brace." ⟨8, 0, 8, 0⟩) ∧
    parseFromTokens 20 (pipelineState listMissingSepToks) =
      .error (.MessageWithLocation "Expect token: right bracket." ⟨5, 0, 5, 0⟩) ∧
    parseFromTokens 20 (pipelineState tupleMissingSepToks) =
      .error (.MessageWithLocation "Expect token: right parenthese." ⟨5, 0, 5, 0⟩) := by
  refine ⟨?_, rfl, rfl, rfl⟩
  intro st t rest expected desc h1 h2
  simp [consumeToken, nextTokenP, h1, h2]

/-- Witness for C5: the general `consume_token` conjunct applied to the
state just before the `name` identifier of
`"{id:123 name:\"foo\"}"`. -/
theorem c5_witness :
    consumeToken ⟨[⟨.Identifier "name", ⟨8, 0, 8, 4⟩⟩], none, ⟨4, 0, 4, 3⟩⟩
        .RightBrace "right brace" =
      .error (.MessageWithLocation "Expect token: right brace." ⟨8, 0, 8, 0⟩) :=
  c5_missing_separator.1 ⟨[⟨.Identifier "name", ⟨8, 0, 8, 4⟩⟩], none, ⟨4, 0, 4, 3⟩⟩
    ⟨.Identifier "name", ⟨8, 0, 8, 4⟩⟩ [] .RightBrace "right brace" rfl (by decide)

/-- C10 counterexample: the claim says brackets containing only
separators parse to an empty `Map`, but `"[,]"` (a bare comma between
brackets) fails with "Unexpected token." at the comma, because the loop
body treats the comma as an element and `parse_node` rejects it. -/
theorem c10_counterexample :
    parseFromTokens 9 (pipelineState commaBracketToks) =
      .error (.MessageWithLocation "Unexpected token." ⟨1, 0, 1, 0⟩) :=
  rfl

/-- C10 (amended): parsing `"[]"` — or brackets whose content is only
newline separators, such as `"[\n]"` — succeeds and returns an empty
`Map` node (not an empty `List`), because `list_type` never leaves
`Unknown` and the non-`List` branch builds the result; a bare comma
between the brackets is instead an "Unexpected token." error.  The
first conjunct states the general body behavior: when the first token
after the open bracket (and optional newline) is already `]`, the body
returns `Map []`. -/
theorem c10_empty_brackets :
    (∀ (f : Nat) (r : Location) (rest : List TokenWithRange)
        (terr : Option AsonError) (last : Location),
      parseListBody (f + 1 + 1) ⟨⟨.RightBracket, r⟩ :: rest, terr, last⟩ =
        .ok (.Map [], ⟨rest, terr, r⟩)) ∧
    parseFromTokens 9 (pipelineState emptyBracketToks) = .ok (.Map []) ∧
    parseFromTokens 9 (pipelineState newlineBracketToks) = .ok (.Map []) := by
  refine ⟨?_, rfl, rfl⟩
  intro f r rest terr last
  simp [parseListBody, parseListLoop, consumeRightBracket, consumeToken, nextTokenP]

/-- Once `list_type` has been decided (is not `Unknown` any more), the
list loop and its iteration tail never change it: the final type equals
the type they were entered with. -/
theorem parseList_mode_preserved :
    ∀ n : Nat,
      (∀ lt items nvps st lt2 items2 nvps2 st2,
        parseListLoop n lt items nvps st = .ok (lt2, items2, nvps2, st2) →
        lt ≠ .unknown → lt2 = lt) ∧
      (∀ lt items nvps item st lt2 items2 nvps2 st2,
        parseListContinue n lt items nvps item st = .ok (lt2, items2, nvps2, st2) →
        lt ≠ .unknown → lt2 = lt) := by
  intro n
  induction n with
  | zero =>
    constructor <;> intros <;> simp_all [parseListLoop, parseListContinue]
  | succ n ih =>
    obtain ⟨ihLoop, ihCont⟩ := ih
    constructor
    · intro lt items nvps st lt2 items2 nvps2 st2 h hne
      simp only [parseListLoop] at h
      repeat' split at h
      all_goals try simp at h
      all_goals try exact h.1.symm
      all_goals try simp_all
      all_goals exact ihCont _ _ _ _ _ _ _ _ _ h hne
    · intro lt items nvps item st lt2 items2 nvps2 st2 h hne
      simp only [parseListContinue] at h
      repeat' split at h
      all_goals try simp at h
      · exact ihLoop _ _ _ _ _ _ _ _ h hne
      · exact h.1.symm
      · exact ihLoop _ _ _ _ _ _ _ _ h hne
      · exact h.1.symm

/-- C2: the List-versus-Map decision of a bracketed container.
Conjunct 1: in the container loop still in the `Unknown` state, after
parsing the first value the loop continues exactly as the iteration
tail entered with `Map` if `expect_token_ignore_newline(0, Colon)`
found a colon, and with `List` otherwise — so the decision is made
exactly once, at the first element.  Conjunct 2: once decided, the
type is never changed (all subsequent elements are parsed in the
chosen form).  Conjunct 3: the container body returns a `List` node
exactly when the loop's final type is `List`, and a `Map` node
otherwise.  Conjunct 4: the lookahead holds exactly when a `Colon` is
at offset 0, or a `NewLine` at offset 0 is followed by a `Colon` at
offset 1 — i.e. it looks past at most one newline. -/
theorem c2_list_map_decision :
    (∀ (n : Nat) (st : PState) (tok : Token) (item : AsonNode) (st1 : PState)
        (dec : Option Bool),
      peekToken st 0 = .ok (some tok) → tok ≠ .RightBracket →
      parseNode n st = .ok (item, st1) →
      expectTokenIgnoreNewline st1 0 .Colon = .ok dec →
      parseListLoop (n + 1) .unknown [] [] st =
        parseListContinue n (if dec.isSome then .map else .list) [] [] item st1) ∧
    (∀ (n : Nat) (lt : ListType) (items : List AsonNode)
        (nvps : List (AsonNode × AsonNode)) (st : PState) (lt2 : ListType)
        (items2 : List AsonNode) (nvps2 : List (AsonNode × AsonNode)) (st2 : PState),
      parseListLoop n lt items nvps st = .ok (lt2, items2, nvps2, st2) →
      lt ≠ .unknown → lt2 = lt) ∧
    (∀ (n : Nat) (st : PState) (node : AsonNode) (st' : PState),
      parseListBody (n + 1) st = .ok (node, st') →
      ∃ lt items nvps st2 st3,
        parseListLoop n .unknown [] [] st = .ok (lt, items, nvps, st2) ∧
        consumeRightBracket st2 = .ok st3 ∧
        node = (if lt = .list then AsonNode.List items else AsonNode.Map nvps) ∧
        st' = st3) ∧
    (∀ (st : PState) (dec : Option Bool),
      expectTokenIgnoreNewline st 0 .Colon = .ok dec →
      (dec.isSome ↔ (tokenAt st 0 = some .Colon ∨
        (tokenAt st 0 = some .NewLine ∧ tokenAt st 1 = some .Colon)))) := by
  refine ⟨?_, ?_, ?_, ?_⟩
  · intro n st tok item st1 dec hpeek hne hnode hdec
    rcases hts : st.toks with _ | ⟨t, ts⟩
    · simp [peekToken, hts] at hpeek
      rcases hterr : st.terr with _ | e <;> simp [hterr] at hpeek
    · have htok : t.token = tok := by
        simp [peekToken, hts] at hpeek
        exact hpeek
      simp [parseListLoop, hts, htok, hne, hnode, hdec]
  · intro n lt items nvps st lt2 items2 nvps2 st2 h hne
    exact (parseList_mode_preserved n).1 _ _ _ _ _ _ _ _ h hne
  · intro n st node st' h
    simp only [parseListBody] at h
    repeat' split at h
    all_goals try simp at h
    all_goals exact ⟨_, _, _, _, _, by assumption, by assumption, by simp_all, by simp_all⟩
  · intro st dec h
    rcases hg0 : st.toks[0]? with _ | t0
    · rcases hterr : st.terr with _ | e
      · simp [expectTokenIgnoreNewline, expectToken, peekToken, hg0, hterr] at h
        subst h
        simp [tokenAt, hg0]
      · simp [expectTokenIgnoreNewline, expectToken, peekToken, hg0, hterr] at h
    · by_cases hc : t0.token = .Colon
      · simp [expectTokenIgnoreNewline, expectToken, peekToken, hg0, hc] at h
        subst h
        simp [tokenAt, hg0, hc]
      · by_cases hn : t0.token = .NewLine
        · rcases hg1 : st.toks[1]? with _ | t1
          · rcases hterr : st.terr with _ | e
            · simp [expectTokenIgnoreNewline, expectToken, peekToken,
                hg0, hg1, hterr, hc, hn] at h
              subst h
              simp [tokenAt, hg0, hg1, hc, hn]
            · simp [expectTokenIgnoreNewline, expectToken, peekToken,
                hg0, hg1, hterr, hc, hn] at h
          · by_cases h1c : t1.token = .Colon
            · simp [expectTokenIgnoreNewline, expectToken, peekToken,
                hg0, hg1, hc, hn, h1c] at h
              subst h
              simp [tokenAt, hg0, hg1, hc, hn, h1c]
            · simp [expectTokenIgnoreNewline, expectToken, peekToken,
                hg0, hg1, hc, hn, h1c] at h
              subst h
              simp [tokenAt, hg0, hg1, hc, hn, h1c]
        · simp [expectTokenIgnoreNewline, expectToken, peekToken, hg0, hc, hn] at h
          subst h
          simp [tokenAt, hg0, hc, hn]

/-- Witness for C2: the decision conjunct applied to the body of
`"[1: 2]"` (decision `Map` because a colon follows the first value),
and the lookahead conjunct applied to the state after that first
value. -/
theorem c2_witness :
    parseListLoop 9 .unknown [] [] (initState mapBodyToks) =
      parseListContinue 8 .map [] [] (.Number (.I32 1))
        ⟨[⟨.Colon, ⟨2, 0, 2, 1⟩⟩, ⟨.Number (.I32 2), ⟨4, 0, 4, 1⟩⟩,
          ⟨.RightBracket, ⟨5, 0, 5, 1⟩⟩], none, ⟨1, 0, 1, 1⟩⟩ ∧
    ((some false : Option Bool).isSome ↔
      (tokenAt ⟨[⟨.Colon, ⟨2, 0, 2, 1⟩⟩, ⟨.Number (.I32 2), ⟨4, 0, 4, 1⟩⟩,
          ⟨.RightBracket, ⟨5, 0, 5, 1⟩⟩], none, ⟨1, 0, 1, 1⟩⟩ 0 = some .Colon ∨
        (tokenAt ⟨[⟨.Colon, ⟨2, 0, 2, 1⟩⟩, ⟨.Number (.I32 2), ⟨4, 0, 4, 1⟩⟩,
            ⟨.RightBracket, ⟨5, 0, 5, 1⟩⟩], none, ⟨1, 0, 1, 1⟩⟩ 0 = some .NewLine ∧
          tokenAt ⟨[⟨.Colon, ⟨2, 0, 2, 1⟩⟩, ⟨.Number (.I32 2), ⟨4, 0, 4, 1⟩⟩,
            ⟨.RightBracket, ⟨5, 0, 5, 1⟩⟩], none, ⟨1, 0, 1, 1⟩⟩ 1 = some .Colon))) :=
  ⟨by
    simpa using c2_list_map_decision.1 8 (initState mapBodyToks)
      (.Number (.I32 1)) (.Number (.I32 1))
      ⟨[⟨.Colon, ⟨2, 0, 2, 1⟩⟩, ⟨.Number (.I32 2), ⟨4, 0, 4, 1⟩⟩,
        ⟨.RightBracket, ⟨5, 0, 5, 1⟩⟩], none, ⟨1, 0, 1, 1⟩⟩
      (some false) rfl (by decide) rfl rfl,
   c2_list_map_decision.2.2.2
     ⟨[⟨.Colon, ⟨2, 0, 2, 1⟩⟩, ⟨.Number (.I32 2), ⟨4, 0, 4, 1⟩⟩,
       ⟨.RightBracket, ⟨5, 0, 5, 1⟩⟩], none, ⟨1, 0, 1, 1⟩⟩ (some false) rfl⟩

/-- C9 counterexample: the claim says any member/parenthesis
combination other than bare `None` and parenthesized `Some` yields the
error "Invalid member of variant \"Option\"." — but when the stream
ends immediately after the variant token (input `"Option::Some"`), the
error construction `self.peek_range(0)?.unwrap()` panics instead of
returning that error. -/
theorem c9_counterexample :
    deserializeOptionI32 (initState optionSomeBareToks) = DeResult.panic :=
  rfl

/-- C9 (amended): decoding an optional value expects a `Variant` with
type name `Option`.  Member `None` not followed by `(` produces the
visitor's none value; member `Some` followed by `(` consumes the `(`,
produces the some value from the inner value, and consumes the closing
`)`; any other member/parenthesis combination with at least one
following token yields the error "Invalid member of variant
\"Option\"." at that token's range; when the stream ends right after
the variant token (and the member is not a bare `None`), the decoder
panics instead.  `"Option::Some(123)"` decoded to `Option<i32>` gives
`Some 123` and `"Option::None"` gives `none`. -/
theorem c9_option_decoding :
    (∀ (α : Type) (vn : α) (vs : PState → DeResult α) (r : Location)
        (rest : List TokenWithRange) (terr : Option AsonError) (last : Location),
      expectToken ⟨rest, terr, r⟩ 0 .LeftParen = .ok false →
      deserializeOption vn vs ⟨⟨.Variant "Option" "None", r⟩ :: rest, terr, last⟩ =
        .ok vn ⟨rest, terr, r⟩) ∧
    (∀ (α : Type) (vn : α) (vs : PState → DeResult α) (r rp : Location)
        (rest : List TokenWithRange) (terr : Option AsonError) (last : Location)
        (a : α) (st3 st4 : PState),
      vs ⟨rest, terr, rp⟩ = .ok a st3 →
      deConsumeRightParen st3 = .ok () st4 →
      deserializeOption vn vs
          ⟨⟨.Variant "Option" "Some", r⟩ :: ⟨.LeftParen, rp⟩ :: rest, terr, last⟩ =
        .ok a st4) ∧
    (∀ (α : Type) (vn : α) (vs : PState → DeResult α) (mem : String) (r : Location)
        (u : TokenWithRange) (rest2 : List TokenWithRange) (terr : Option AsonError)
        (last : Location),
      (mem = "None" → u.token = .LeftParen) →
      (mem = "Some" → u.token ≠ .LeftParen) →
      deserializeOption vn vs ⟨⟨.Variant "Option" mem, r⟩ :: u :: rest2, terr, last⟩ =
        .err (.MessageWithLocation "Invalid member of variant \"Option\"." u.range)
          ⟨u :: rest2, terr, r⟩) ∧
    (∀ (α : Type) (vn : α) (vs : PState → DeResult α) (mem : String) (r last : Location),
      mem ≠ "None" →
      deserializeOption vn vs ⟨[⟨.Variant "Option" mem, r⟩], none, last⟩ =
        DeResult.panic) ∧
    deFromTokens deserializeOptionI32 (pipelineState optionSome123Toks) =
      .ok (some 123) ⟨[], none, ⟨16, 0, 16, 1⟩⟩ ∧
    deFromTokens deserializeOptionI32 (pipelineState optionNoneToks) =
      .ok none ⟨[], none, ⟨0, 0, 0, 12⟩⟩ := by
  refine ⟨?_, ?_, ?_, ?_, rfl, rfl⟩
  · intro α vn vs r rest terr last hp
    simp [deserializeOption, hp]
  · intro α vn vs r rp rest terr last a st3 st4 hvs hrp
    simp [deserializeOption, expectToken, peekToken, nextTokenP, hvs, hrp]
  · intro α vn vs mem r u rest2 terr last h1 h2
    by_cases hm : mem = "None"
    · have hu := h1 hm
      simp [deserializeOption, expectToken, peekToken, hm, hu]
    · by_cases hs : mem = "Some"
      · have hu := h2 hs
        simp [deserializeOption, expectToken, peekToken, hm, hs, hu]
      · simp [deserializeOption, expectToken, peekToken, hm, hs]
  · intro α vn vs mem r last hm
    simp [deserializeOption, expectToken, peekToken, hm]

/-- Witness for C9: the none, some, invalid-member and panic conjuncts
applied to concrete token streams. -/
theorem c9_witness :
    deserializeOptionI32 (initState optionNoneToks) =
      .ok none ⟨[], none, ⟨0, 0, 0, 12⟩⟩ ∧
    deserializeOptionI32 (initState optionSome123Toks) =
      .ok (some 123) ⟨[], none, ⟨16, 0, 16, 1⟩⟩ ∧
    deserializeOptionI32
        (initState [⟨.Variant "Option" "Other", ⟨0, 0, 0, 13⟩⟩,
          ⟨.Number (.I32 1), ⟨14, 0, 14, 1⟩⟩]) =
      .err (.MessageWithLocation "Invalid member of variant \"Option\"." ⟨14, 0, 14, 1⟩)
        ⟨[⟨.Number (.I32 1), ⟨14, 0, 14, 1⟩⟩], none, ⟨0, 0, 0, 13⟩⟩ ∧
    deserializeOptionI32 (initState optionSomeBareToks) = DeResult.panic :=
  ⟨c9_option_decoding.1 (Option Int) none visitSomeI32 ⟨0, 0, 0, 12⟩ [] none
      ⟨0, 0, 0, 0⟩ rfl,
   c9_option_decoding.2.1 (Option Int) none visitSomeI32 ⟨0, 0, 0, 12⟩ ⟨12, 0, 12, 1⟩
      [⟨.Number (.I32 123), ⟨13, 0, 13, 3⟩⟩, ⟨.RightParen, ⟨16, 0, 16, 1⟩⟩] none
      ⟨0, 0, 0, 0⟩ (some 123) ⟨[⟨.RightParen, ⟨16, 0, 16, 1⟩⟩], none, ⟨13, 0, 13, 3⟩⟩
      ⟨[], none, ⟨16, 0, 16, 1⟩⟩ rfl rfl,
   c9_option_decoding.2.2.1 (Option Int) none visitSomeI32 "Other" ⟨0, 0, 0, 13⟩
      ⟨.Number (.I32 1), ⟨14, 0, 14, 1⟩⟩ [] none ⟨0, 0, 0, 0⟩
      (by decide) (by decide),
   c9_option_decoding.2.2.2.1 (Option Int) none visitSomeI32 "Some" ⟨0, 0, 0, 12⟩
      ⟨0, 0, 0, 0⟩ (by decide)⟩

end Ason
